import Mathlib

/-!
Verification development for the deterministic transaction-execution core of
`casper-node` (file `src/execution_engine/src/core/engine_state/mod.rs`).

The engine-state module is shallowly embedded: the Rust functions
`run_execute`, `deploy`, `transfer`, `commit_step`, `commit_upgrade`,
`get_era_validators` and `get_authorized_account` are translated into pure
Lean functions.  External collaborators that are not part of the extracted
sources (the WASM executor, the trie-backed state provider, the tracking-copy
extension helpers, the `ExecutionResult` builder) are represented either by
explicit oracle parameters (arbitrary but fixed functions, mirroring the fact
that the engine is generic over `StateProvider` and `Executor` behaviour) or
by definitions modelled from the specification where noted.

Conventions:
* 32-byte addresses, hashes and `U512` amounts are modelled as `Nat`
  (all arithmetic used by the engine is far below 2^512, and `U512`
  arithmetic in the source is checked, not wrapping);
* `BTreeMap`/`HashMap`/`AdditiveMap` values are modelled as association
  lists with unique keys;
* `Rc<RefCell<TrackingCopy>>` mutation is modelled by explicit state
  passing: every operation that mutates the tracking copy returns the new
  copy;
* reads recorded in the `ops` journal of an `ExecutionEffect` are not
  modelled: only the `transforms` map is, which is what every claim below
  is about;
* `panic!`/`expect` sites are modelled by an `Option` result where `none`
  is the panic.
-/

/-- Access rights of a `URef` (`casper_types::AccessRights`). -/
inductive AccessRights where
  | noRights
  | read
  | writeR
  | add
  | readAdd
  | readWrite
  | addWrite
  | readAddWrite
deriving DecidableEq, Repr

/-- An unforgeable reference: a 32-byte address (modelled as `Nat`) plus
access rights (`casper_types::URef`). -/
structure URefT where
  addr : Nat
  rights : AccessRights
deriving DecidableEq, Repr

/-- `URef::default()`: zero address, no rights. -/
def URefT.default : URefT := ⟨0, AccessRights.noRights⟩

/-- Protocol version `(major, minor, patch)` (`casper_types::ProtocolVersion`). -/
structure ProtocolVersion where
  major : Nat
  minor : Nat
  patch : Nat
deriving DecidableEq, Repr

/-- Global-state key (`casper_types::Key`), tagged sum over addresses. -/
inductive Key where
  | account (h : Nat)
  | hashK (h : Nat)
  | uref (u : URefT)
  | transferK (h : Nat)
  | deployInfo (h : Nat)
  | eraInfo (id : Nat)
  | balance (addr : Nat)
  | bid (addr : Nat)
  | withdraw (addr : Nat)
deriving DecidableEq, Repr

/-- `Key::into_account`. -/
def Key.intoAccount : Key → Option Nat
  | Key.account h => some h
  | _ => none

/-- Named keys of an account or contract: a map from names to keys
(`casper_types::contracts::NamedKeys`, a `BTreeMap<String, Key>`). -/
def NamedKeys := List (String × Key)
deriving DecidableEq, Repr

/-- Association-list lookup (first entry wins), the model of `BTreeMap` /
`HashMap` lookup throughout. -/
def alookup {α β : Type} [DecidableEq α] : List (α × β) → α → Option β
  | [], _ => none
  | (k, v) :: rest, a => if k = a then some v else alookup rest a

instance {ε α : Type} [DecidableEq ε] [DecidableEq α] : DecidableEq (Except ε α) := fun x y =>
  match x, y with
  | Except.ok a, Except.ok b =>
    if h : a = b then Decidable.isTrue (congrArg Except.ok h)
    else Decidable.isFalse (fun hh => h (Except.ok.inj hh))
  | Except.ok _, Except.error _ => Decidable.isFalse (fun hh => Except.noConfusion hh)
  | Except.error _, Except.ok _ => Decidable.isFalse (fun hh => Except.noConfusion hh)
  | Except.error e, Except.error f =>
    if h : e = f then Decidable.isTrue (congrArg Except.error h)
    else Decidable.isFalse (fun hh => h (Except.error.inj hh))

/-- Action thresholds of an account (`shared::account::ActionThresholds`).
Modelled from the spec: `account.rs` is not among the extracted sources; the
spec gives `action_thresholds: {deployment: u8, key_management: u8}`. -/
structure ActionThresholds where
  deployment : Nat
  keyManagement : Nat
deriving DecidableEq, Repr

/-- An account (`shared::account::Account`).
Modelled from the spec: `account.rs` is not among the extracted sources; the
spec gives `{account_hash, named_keys, main_purse, associated_keys:
map pubkey→weight, action_thresholds}`. -/
structure Account where
  accountHash : Nat
  namedKeys : NamedKeys
  mainPurse : URefT
  associatedKeys : List (Nat × Nat)
  actionThresholds : ActionThresholds
deriving DecidableEq, Repr

/-- `Account::create(account_hash, named_keys, main_purse)`: associated keys
are the account itself with weight 1, thresholds 1/1.
Modelled from the spec (`account.rs` missing). -/
def Account.create (h : Nat) (nk : NamedKeys) (purse : URefT) : Account :=
  ⟨h, nk, purse, [(h, 1)], ⟨1, 1⟩⟩

/-- `Account::can_authorize`: the authorization keys are non-empty and every
one of them is an associated key.
Modelled from the spec (`account.rs` missing). -/
def Account.canAuthorize (a : Account) (authKeys : List Nat) : Bool :=
  !authKeys.isEmpty && authKeys.all (fun k => (alookup a.associatedKeys k).isSome)

/-- Total weight of the authorization keys: sum of the weights of those that
are associated keys of the account. -/
def Account.totalWeight (a : Account) (authKeys : List Nat) : Nat :=
  authKeys.foldl (fun acc k => acc + ((alookup a.associatedKeys k).getD 0)) 0

/-- `Account::can_deploy_with`: the total key weight meets the deployment
threshold.  Modelled from the spec: "a set S of pubkeys can deploy iff
Σ weight(k∈S) ≥ deployment threshold". -/
def Account.canDeployWith (a : Account) (authKeys : List Nat) : Bool :=
  a.actionThresholds.deployment ≤ a.totalWeight authKeys

/-- A stored contract (`casper_types::Contract`); only the named keys are
relevant to the engine-state code under verification. -/
structure Contract where
  namedKeys : NamedKeys
deriving DecidableEq, Repr

/-- `casper_types::DeployInfo`: the record persisted under
`Key::DeployInfo(deploy_hash)`. -/
structure DeployInfoV where
  deployHash : Nat
  transfers : List Nat
  fromAccount : Nat
  source : URefT
  gas : Nat
deriving DecidableEq, Repr

/-- CLValue payloads that the engine-state code stores or reads.  A real
`CLValue` is a typed byte blob; here the typed views used by the code are
modelled directly. -/
inductive CLVal where
  | u32 (n : Nat)
  | u64 (n : Nat)
  | u512 (n : Nat)
  | unitV
  | rateV (numer denom : Nat)
  | accountHashV (h : Nat)
  | urefArg (addr : Nat) (rights : AccessRights)
  | optU64 (n : Option Nat)
  | pubkeyListV (ks : List Nat)
  | rewardFactorsV (rf : List (Nat × Nat))
deriving DecidableEq, Repr

/-- A stored value (`shared::stored_value::StoredValue`), restricted to the
variants the engine-state code manipulates. -/
inductive StoredValue where
  | clValue (v : CLVal)
  | account (a : Account)
  | contract (c : Contract)
  | deployInfoV (d : DeployInfoV)
  | contractWasm (bytes : List Nat)
deriving DecidableEq, Repr

/-- A transform (`shared::transform::Transform`), restricted to the variants
produced by the engine-state code: `Identity`, `Write`, `AddUInt512`,
`Failure`. -/
inductive Transform where
  | identity
  | writeT (v : StoredValue)
  | addU512 (n : Nat)
  | failureT
deriving DecidableEq, Repr

/-- Composition of transforms, as used by `AdditiveMap` insertion: the second
transform is applied after the first.  A later `Write` overwrites; adds
combine additively; `Failure` absorbs; a typed add onto a non-`U512` write is
a failure.  Modelled from the spec (`transform.rs` missing): "Commutative
adds must form an abelian monoid; non-commutative writes conflict". -/
def Transform.compose : Transform → Transform → Transform
  | t, Transform.identity => t
  | _, Transform.writeT v => Transform.writeT v
  | Transform.identity, t => t
  | Transform.writeT v, Transform.addU512 n =>
    match v with
    | StoredValue.clValue (CLVal.u512 m) => Transform.writeT (StoredValue.clValue (CLVal.u512 (m + n)))
    | _ => Transform.failureT
  | Transform.addU512 m, Transform.addU512 n => Transform.addU512 (m + n)
  | Transform.failureT, _ => Transform.failureT
  | _, Transform.failureT => Transform.failureT

/-- An execution effect: the `transforms` component of
`shared::additive_map::AdditiveMap<Key, Transform>`, as an association list
with unique keys in insertion order. -/
def Effect := List (Key × Transform)
deriving DecidableEq, Repr

/-- Lookup of the transform accumulated for a key. -/
def lookupT : Effect → Key → Option Transform
  | [], _ => none
  | (k', t) :: rest, k => if k' = k then some t else lookupT rest k

/-- `AdditiveMap` insertion: combine with an existing transform for the key
via `Transform.compose`, else append. -/
def insertT : Effect → Key → Transform → Effect
  | [], k, t => [(k, t)]
  | (k', t') :: rest, k, t =>
    if k' = k then (k', t'.compose t) :: rest else (k', t') :: insertT rest k t

/-- Union of two effects: fold the second into the first by `AdditiveMap`
insertion (used by the execution-result builder to merge phase effects). -/
def unionEff (e1 e2 : Effect) : Effect :=
  e2.foldl (fun acc kt => insertT acc kt.1 kt.2) e1

/-- The stored key/value map at one state root, as an association list. -/
def StoreMap := List (Key × StoredValue)
deriving DecidableEq, Repr

/-- Store lookup. -/
def storeLookup (m : StoreMap) (k : Key) : Option StoredValue :=
  alookup m k

/-- Store update (insert or overwrite). -/
def storeSet : StoreMap → Key → StoredValue → StoreMap
  | [], k, v => [(k, v)]
  | (k', v') :: rest, k, v =>
    if k' = k then (k', v) :: rest else (k', v') :: storeSet rest k v

/-- Errors produced when applying transforms at commit time
(cf. `CommitResult` variants `KeyNotFound`, `TypeMismatch`, `Serialization`). -/
inductive CommitErr where
  | keyNotFoundC (k : Key)
  | typeMismatchC
  | serializationC
deriving DecidableEq, Repr

/-- Apply one transform to the value stored under a key. -/
def applyTransform (m : StoreMap) (k : Key) : Transform → Except CommitErr StoreMap
  | Transform.identity => Except.ok m
  | Transform.writeT v => Except.ok (storeSet m k v)
  | Transform.addU512 n =>
    match storeLookup m k with
    | none => Except.error (CommitErr.keyNotFoundC k)
    | some (StoredValue.clValue (CLVal.u512 b)) =>
      Except.ok (storeSet m k (StoredValue.clValue (CLVal.u512 (b + n))))
    | some _ => Except.error CommitErr.typeMismatchC
  | Transform.failureT => Except.error CommitErr.serializationC

/-- Apply a whole effect, entry by entry in order. -/
def applyEff (m : StoreMap) : Effect → Except CommitErr StoreMap
  | [] => Except.ok m
  | (k, t) :: rest =>
    match applyTransform m k t with
    | Except.error e => Except.error e
    | Except.ok m' => applyEff m' rest

/-- A tracking copy (`core::tracking_copy::TrackingCopy`): a reader over a
checked-out state root plus an ordered transform log.  Read-ops journalling
is not modelled (none of the verified claims concerns the `ops` map). -/
structure TrackingCopy where
  base : StoreMap
  log : Effect
deriving DecidableEq, Repr

/-- `TrackingCopy::new(reader)`. -/
def TrackingCopy.new (m : StoreMap) : TrackingCopy := ⟨m, []⟩

/-- `TrackingCopy::write`: record a `Write` transform. -/
def TrackingCopy.writeKV (tc : TrackingCopy) (k : Key) (v : StoredValue) : TrackingCopy :=
  ⟨tc.base, insertT tc.log k (Transform.writeT v)⟩

/-- Layered read: the transform log overrides the store. -/
def TrackingCopy.readKey (tc : TrackingCopy) (k : Key) : Option StoredValue :=
  match lookupT tc.log k with
  | none => storeLookup tc.base k
  | some Transform.identity => storeLookup tc.base k
  | some (Transform.writeT v) => some v
  | some (Transform.addU512 n) =>
    match storeLookup tc.base k with
    | some (StoredValue.clValue (CLVal.u512 b)) => some (StoredValue.clValue (CLVal.u512 (b + n)))
    | _ => none
  | some Transform.failureT => none

/-- `TrackingCopy::fork`: a snapshot whose later mutations do not affect the
parent (immediate in a pure embedding). -/
def TrackingCopy.fork (tc : TrackingCopy) : TrackingCopy := tc

/-- `TrackingCopy::effect()`: the accumulated transforms. -/
def TrackingCopy.effect (tc : TrackingCopy) : Effect := tc.log

/-- API errors surfaced through `revert` (`casper_types::ApiError`): either a
mint error code or the generic `ApiError::Transfer`. -/
inductive ApiErr where
  | mintError (code : Nat)
  | transferErr
deriving DecidableEq, Repr

/-- Execution errors (`core::execution::Error`), restricted to the variants
the engine-state code constructs or propagates. -/
inductive ExecErr where
  | deploymentAuthorizationFailure
  | revertErr (e : ApiErr)
  | keyNotFoundE (k : Key)
  | typeMismatchE
  | arithmetic
deriving DecidableEq, Repr

/-- Engine-state errors (`core::engine_state::error::Error`), restricted to
the variants the code under verification constructs. -/
inductive EngineError where
  | invalidProtocolVersion (pv : ProtocolVersion)
  | authorization
  | insufficientPayment
  | deployErr
  | exec (e : ExecErr)
  | protocolUpgrade (code : Nat)
  | bytesreprErr (what : String)
deriving DecidableEq, Repr

/-- `engine_state::error::RootNotFound`. -/
structure RootNotFound where
  hash : Nat
deriving DecidableEq, Repr

/-- An execution result (`engine_state::execution_result::ExecutionResult`).
Modelled from the spec (`execution_result.rs` is not among the extracted
sources): `Failure{error, effect, transfers, cost}` /
`Success{effect, transfers, cost}`. -/
inductive ExecutionResult where
  | failure (error : EngineError) (effect : Effect) (transfers : List Nat) (cost : Nat)
  | success (effect : Effect) (transfers : List Nat) (cost : Nat)
deriving DecidableEq, Repr

/-- Gas cost of the result. -/
def ExecutionResult.cost : ExecutionResult → Nat
  | ExecutionResult.failure _ _ _ c => c
  | ExecutionResult.success _ _ c => c

/-- The result's effect. -/
def ExecutionResult.effect : ExecutionResult → Effect
  | ExecutionResult.failure _ e _ _ => e
  | ExecutionResult.success e _ _ => e

/-- The result's transfers. -/
def ExecutionResult.transfers : ExecutionResult → List Nat
  | ExecutionResult.failure _ _ t _ => t
  | ExecutionResult.success _ t _ => t

/-- `ExecutionResult::is_success`. -/
def ExecutionResult.isSuccess : ExecutionResult → Bool
  | ExecutionResult.failure _ _ _ _ => false
  | ExecutionResult.success _ _ _ => true

/-- `ExecutionResult::is_failure`. -/
def ExecutionResult.isFailure : ExecutionResult → Bool
  | ExecutionResult.failure _ _ _ _ => true
  | ExecutionResult.success _ _ _ => false

/-- `ExecutionResult::take_error`. -/
def ExecutionResult.takeError : ExecutionResult → Option EngineError
  | ExecutionResult.failure e _ _ _ => some e
  | ExecutionResult.success _ _ _ => none

/-- `ExecutionResult::with_cost`. -/
def ExecutionResult.withCost : ExecutionResult → Nat → ExecutionResult
  | ExecutionResult.failure e eff t _, c => ExecutionResult.failure e eff t c
  | ExecutionResult.success eff t _, c => ExecutionResult.success eff t c

/-- `ExecutionResult::with_effect`. -/
def ExecutionResult.withEffect : ExecutionResult → Effect → ExecutionResult
  | ExecutionResult.failure e _ t c, eff => ExecutionResult.failure e eff t c
  | ExecutionResult.success _ t c, eff => ExecutionResult.success eff t c

/-- `ExecutionResult::precondition_failure`: a failure with zero cost and
empty effect.  Modelled from the spec: "Surfaced as
`ExecutionResult::Failure` with `cost=0` and `effect=∅`". -/
def ExecutionResult.preconditionFailure (e : EngineError) : ExecutionResult :=
  ExecutionResult.failure e [] [] 0

/-- `engine_state::execution_result::ForcedTransferResult`. -/
inductive ForcedTransferResult where
  | insufficientPayment
  | paymentFailure
deriving DecidableEq, Repr

/-- `ExecutionResult::check_forced_transfer(payment_purse_balance)`.
Modelled from the spec: "returns `Some(InsufficientPayment)` if balance <
declared cost, `Some(PaymentFailure)` if payment phase failed, else `None`"
(costs are in motes; `CONV_RATE = 1`). -/
def ExecutionResult.checkForcedTransfer (pr : ExecutionResult) (paymentPurseBalance : Nat) :
    Option ForcedTransferResult :=
  if paymentPurseBalance < pr.cost then some ForcedTransferResult.insufficientPayment
  else if pr.isFailure then some ForcedTransferResult.paymentFailure
  else none

/-- `ExecutionResult::new_payment_code_error`: the forced-transfer failure
result.  Modelled from the spec: "take `MAX_PAYMENT` from account main purse
to proposer; return failure with no session effects"; the effect writes the
reduced account balance and adds `MAX_PAYMENT` to the proposer's balance;
the cost is `MAX_PAYMENT` in gas (`CONV_RATE = 1`); an account balance below
`MAX_PAYMENT` is an arithmetic error (`none`). -/
def ExecutionResult.newPaymentCodeError (error : EngineError) (maxPayment accountBalance : Nat)
    (accountMainPurseBalanceKey proposerMainPurseBalanceKey : Key) : Option ExecutionResult :=
  if accountBalance < maxPayment then none
  else
    some (ExecutionResult.failure error
      (insertT
        (insertT [] accountMainPurseBalanceKey
          (Transform.writeT (StoredValue.clValue (CLVal.u512 (accountBalance - maxPayment)))))
        proposerMainPurseBalanceKey (Transform.addU512 maxPayment))
      [] maxPayment)

/-- `engine_state::execution_result::ExecutionResultBuilder`: three slots to
be filled by the payment, session and finalize phases.
Modelled from the spec (`execution_result.rs` missing): "State machine with
three required slots: payment, session, finalize". -/
structure ExecutionResultBuilder where
  paymentResult : Option ExecutionResult
  sessionResult : Option ExecutionResult
  finalizeResult : Option ExecutionResult
deriving DecidableEq, Repr

/-- `ExecutionResultBuilder::new()`. -/
def ExecutionResultBuilder.empty : ExecutionResultBuilder := ⟨none, none, none⟩

/-- `set_payment_execution_result`. -/
def ExecutionResultBuilder.setPayment (b : ExecutionResultBuilder) (r : ExecutionResult) :
    ExecutionResultBuilder :=
  ⟨some r, b.sessionResult, b.finalizeResult⟩

/-- `set_session_execution_result`. -/
def ExecutionResultBuilder.setSession (b : ExecutionResultBuilder) (r : ExecutionResult) :
    ExecutionResultBuilder :=
  ⟨b.paymentResult, some r, b.finalizeResult⟩

/-- `set_finalize_execution_result`. -/
def ExecutionResultBuilder.setFinalize (b : ExecutionResultBuilder) (r : ExecutionResult) :
    ExecutionResultBuilder :=
  ⟨b.paymentResult, b.sessionResult, some r⟩

/-- `ExecutionResultBuilder::total_cost()`: payment cost plus session cost
(of the slots set so far). -/
def ExecutionResultBuilder.totalCost (b : ExecutionResultBuilder) : Nat :=
  (b.paymentResult.map ExecutionResult.cost).getD 0 +
    (b.sessionResult.map ExecutionResult.cost).getD 0

/-- `ExecutionResultBuilder::build`: valid iff all three slots are set
(`none` models the `Err` that the callers `expect`).
Modelled from the spec: "`Failure{error, effect, transfers, cost}` if session
failed but payment succeeded — effect is payment+finalize; cost is
payment_cost.  `Success{effect, transfers, cost}` otherwise — effect is
payment+session+finalize; cost is payment+session." -/
def ExecutionResultBuilder.build (b : ExecutionResultBuilder) : Option ExecutionResult :=
  match b.paymentResult, b.sessionResult, b.finalizeResult with
  | some p, some s, some f =>
    if s.isFailure && p.isSuccess then
      some (ExecutionResult.failure (s.takeError.getD EngineError.deployErr)
        (unionEff p.effect f.effect) s.transfers p.cost)
    else
      some (ExecutionResult.success (unionEff (unionEff p.effect s.effect) f.effect)
        s.transfers (p.cost + s.cost))
  | _, _, _ => none

/-- `MAX_PAYMENT = 2_500_000_000 * CONV_RATE` motes (`CONV_RATE = 1`). -/
def maxPaymentAmount : Nat := 2500000000

/-- `SYSTEM_ACCOUNT_ADDR`: the all-zero account hash. -/
def systemAccountAddr : Nat := 0

/-- System config (`shared::system_config::SystemConfig`); only the wasmless
transfer cost is consumed by the engine-state code. -/
structure SystemConfigT where
  wasmlessTransferCost : Nat
deriving DecidableEq, Repr

/-- Protocol data (`storage::protocol_data::ProtocolData`): wasm and system
configs plus the four system-contract hashes. -/
structure ProtocolData where
  wasmConfig : Nat
  systemConfig : SystemConfigT
  mint : Nat
  proofOfStake : Nat
  standardPayment : Nat
  auction : Nat
deriving DecidableEq, Repr

/-- The in-memory state provider: a list of state roots (a root hash is the
index of its `StoreMap`) plus the protocol-data store keyed by version.  The
engine is generic over `StateProvider`; the in-memory implementation is
infallible, so the `Err(S::Error)` branches of the source collapse. -/
structure GlobalState where
  roots : List StoreMap
  protoData : List (ProtocolVersion × ProtocolData)
deriving DecidableEq, Repr

/-- `StateProvider::checkout(hash)`: `none` signals `RootNotFound`. -/
def checkoutGS (gs : GlobalState) (root : Nat) : Option StoreMap :=
  gs.roots.get? root

/-- `StateProvider::get_protocol_data`. -/
def getProtocolDataGS (gs : GlobalState) (pv : ProtocolVersion) : Option ProtocolData :=
  alookup gs.protoData pv

/-- `StateProvider::put_protocol_data` (append-only store; a fresh version
key is appended in front so lookup finds the newest entry). -/
def putProtocolDataGS (gs : GlobalState) (pv : ProtocolVersion) (pd : ProtocolData) : GlobalState :=
  ⟨gs.roots, (pv, pd) :: gs.protoData⟩

/-- Result of `StateProvider::commit` threaded with the updated provider. -/
inductive CommitOutcome where
  | success (gs : GlobalState) (newRoot : Nat)
  | rootNotFoundC
  | errC (e : CommitErr)
deriving DecidableEq, Repr

/-- `StateProvider::commit(root, transforms)`: checkout the root, apply the
transforms in order, store the produced map under a fresh root. -/
def commitGS (gs : GlobalState) (root : Nat) (eff : Effect) : CommitOutcome :=
  match checkoutGS gs root with
  | none => CommitOutcome.rootNotFoundC
  | some m =>
    match applyEff m eff with
    | Except.error e => CommitOutcome.errC e
    | Except.ok m' => CommitOutcome.success ⟨gs.roots ++ [m'], gs.protoData⟩ gs.roots.length

/-- `TrackingCopyExt::get_account` (modelled from the spec: the tracking-copy
extension helpers are not among the extracted sources; an account lives
under `Key::Account`). -/
def getAccountTC (tc : TrackingCopy) (h : Nat) : Except ExecErr Account :=
  match tc.readKey (Key.account h) with
  | some (StoredValue.account a) => Except.ok a
  | some _ => Except.error ExecErr.typeMismatchE
  | none => Except.error (ExecErr.keyNotFoundE (Key.account h))

/-- `TrackingCopyExt::get_contract` (modelled from the spec: a contract lives
under `Key::Hash`). -/
def getContractTC (tc : TrackingCopy) (h : Nat) : Except ExecErr Contract :=
  match tc.readKey (Key.hashK h) with
  | some (StoredValue.contract c) => Except.ok c
  | some _ => Except.error ExecErr.typeMismatchE
  | none => Except.error (ExecErr.keyNotFoundE (Key.hashK h))

/-- `TrackingCopyExt::get_purse_balance_key` (modelled from the spec: "the
mapping `URef → Balance key` is an injection maintained by mint"; a purse
URef's balance lives under `Key::Balance(uref_addr)`). -/
def getPurseBalanceKeyTC (_tc : TrackingCopy) (purseKey : Key) : Except ExecErr Key :=
  match purseKey with
  | Key.uref u => Except.ok (Key.balance u.addr)
  | _ => Except.error ExecErr.typeMismatchE

/-- `TrackingCopyExt::get_purse_balance` (modelled from the spec: "a purse's
balance is always queryable via `Key::Balance(purse_addr)` returning a
`U512` `CLValue`"); the result is in motes. -/
def getPurseBalanceTC (tc : TrackingCopy) (balanceKey : Key) : Except ExecErr Nat :=
  match tc.readKey balanceKey with
  | some (StoredValue.clValue (CLVal.u512 n)) => Except.ok n
  | some _ => Except.error ExecErr.typeMismatchE
  | none => Except.error (ExecErr.keyNotFoundE balanceKey)

/-- Execution phase (`casper_types::Phase`). -/
inductive Phase where
  | payment
  | session
  | finalizePayment
deriving DecidableEq, Repr

/-- An abstract preprocessed WASM module (`parity_wasm` `Module`); modules
are opaque to the engine-state code. -/
structure SystemModule where
  moduleId : Nat
deriving DecidableEq, Repr

/-- Runtime arguments (`casper_types::RuntimeArgs`): name/value pairs. -/
def RuntimeArgsT := List (String × CLVal)
deriving DecidableEq, Repr

/-- The session/payment item of a deploy
(`engine_state::executable_deploy_item::ExecutableDeployItem`).  Stored
variants carry only the data the engine-state control flow inspects; the
serialized `runtime_args` are carried already deserialized (the
`into_runtime_args` deserialization step is modelled as total). -/
inductive ExecutableDeployItem where
  | moduleBytes (bytes : List Nat) (args : RuntimeArgsT)
  | storedContractByHash (hash : Nat) (entryPoint : String) (args : RuntimeArgsT)
  | storedContractByName (name : String) (entryPoint : String) (args : RuntimeArgsT)
  | storedVersionedContractByHash (hash : Nat) (version : Option Nat) (entryPoint : String) (args : RuntimeArgsT)
  | storedVersionedContractByName (name : String) (version : Option Nat) (entryPoint : String) (args : RuntimeArgsT)
  | transferItem (args : RuntimeArgsT)
deriving DecidableEq, Repr

/-- `ExecutableDeployItem::into_runtime_args` (modelled as total: the args
are carried deserialized). -/
def ExecutableDeployItem.intoRuntimeArgs : ExecutableDeployItem → RuntimeArgsT
  | ExecutableDeployItem.moduleBytes _ a => a
  | ExecutableDeployItem.storedContractByHash _ _ a => a
  | ExecutableDeployItem.storedContractByName _ _ a => a
  | ExecutableDeployItem.storedVersionedContractByHash _ _ _ a => a
  | ExecutableDeployItem.storedVersionedContractByName _ _ _ a => a
  | ExecutableDeployItem.transferItem a => a

/-- Whether the session item selects the native-transfer path in
`run_execute`. -/
def ExecutableDeployItem.isTransfer : ExecutableDeployItem → Bool
  | ExecutableDeployItem.transferItem _ => true
  | _ => false

/-- `engine_state::deploy_item::DeployItem`. -/
structure DeployItem where
  address : Nat
  session : ExecutableDeployItem
  payment : ExecutableDeployItem
  gasPrice : Nat
  authorizationKeys : List Nat
  deployHash : Nat
deriving DecidableEq, Repr

/-- `engine_state::execute_request::ExecuteRequest`: deploy slots may carry a
pre-computed failure result (`Vec<Result<DeployItem, ExecutionResult>>` after
`take_deploys`). -/
structure ExecuteRequest where
  parentStateHash : Nat
  blockTime : Nat
  protocolVersion : ProtocolVersion
  proposer : Nat
  deploys : List (Except ExecutionResult DeployItem)
deriving Repr

/-- Resolved deploy metadata
(`engine_state::executable_deploy_item::DeployMetadata`): which module runs,
under which base key and named keys.  The `System` variant carries the
contract data of the system contract it resolves to (used by the session
branch; the payment branch substitutes the account's context). -/
inductive DeployMetadata where
  | system (baseKey : Key) (contractNamedKeys : NamedKeys) (entryPoint : String)
  | sessionMeta (module : SystemModule) (entryPoint : String)
  | contractMeta (module : SystemModule) (baseKey : Key) (contractNamedKeys : NamedKeys) (entryPoint : String)
deriving DecidableEq, Repr

/-- `core::execution::DirectSystemContractCall` variants used by the
engine-state code. -/
inductive SysCall where
  | createPurse
  | getPaymentPurse
  | transferCall
  | finalizePaymentCall
  | slash
  | distributeRewards
  | runAuction
  | getEraValidators
deriving DecidableEq, Repr

/-- Validator weights: public key → stake. -/
def ValidatorWeights := List (Nat × Nat)
deriving DecidableEq, Repr

/-- Era validators: era id → validator weights
(`casper_types::auction::EraValidators`). -/
def EraValidatorsT := List (Nat × ValidatorWeights)
deriving DecidableEq, Repr

/-- A mint `Result<(), u8>`: `okU` is success, `errU code` the error code. -/
inductive MintRet where
  | okU
  | errU (code : Nat)
deriving DecidableEq, Repr

/-- The typed value returned by `exec_system_contract::<T>` for the `T`s the
engine-state code requests. -/
inductive SysValue where
  | urefV (u : URefT)
  | unitRet
  | mintResult (r : MintRet)
  | eraValidatorsV (ev : EraValidatorsT)
deriving DecidableEq, Repr

/-- Deserialize the system-call return as a `URef` (the typed read that the
`CreatePurse` / `GetPaymentPurse` call sites perform). -/
def SysValue.asURef : SysValue → Option URefT
  | SysValue.urefV u => some u
  | _ => none

/-- Deserialize the system-call return as a mint `Result<(), u8>`. -/
def SysValue.asMintResult : SysValue → Option MintRet
  | SysValue.mintResult r => some r
  | _ => none

/-- Deserialize the system-call return as `EraValidators`. -/
def SysValue.asEraValidators : SysValue → Option EraValidatorsT
  | SysValue.eraValidatorsV ev => some ev
  | _ => none

/-- Native-transfer arguments (`engine_state::transfer::TransferArgs`). -/
structure TransferArgs where
  toAccount : Option Nat
  source : URefT
  target : URefT
  amount : Nat
  argId : Option Nat
deriving DecidableEq, Repr

/-- `engine_state::transfer::TransferTargetMode`. -/
inductive TransferTargetMode where
  | unknown
  | purseExists (u : URefT)
  | createAccount (publicKey : Nat)
deriving DecidableEq, Repr

/-- Oracles for the collaborators the engine is generic over: the executor
(`core::execution::Executor`, which runs WASM), the system-module loader, the
deploy-metadata resolver, the transfer runtime-args builder and the
major-version upgrade installer.  Each mutating operation threads the
tracking copy explicitly. -/
structure Oracles where
  getSystemModule : TrackingCopy → Except EngineError SystemModule
  getDeployMetadata : ExecutableDeployItem → Phase → TrackingCopy → Except EngineError DeployMetadata
  exec : SystemModule → String → RuntimeArgsT → Key → Account → NamedKeys → List Nat →
    Nat → Phase → TrackingCopy → ExecutionResult × TrackingCopy
  execStandardPayment : RuntimeArgsT → Key → Account → NamedKeys → List Nat →
    Nat → TrackingCopy → ExecutionResult × TrackingCopy
  execSystemContract : SysCall → RuntimeArgsT → NamedKeys → List Key → Key → Account →
    List Nat → Nat → Phase → TrackingCopy → Option SysValue × ExecutionResult × TrackingCopy
  transferTargetMode : RuntimeArgsT → TrackingCopy → Except EngineError TransferTargetMode
  buildTransferArgs : RuntimeArgsT → Account → TrackingCopy → Except EngineError TransferArgs
  upgradeSystemContractsMajor : TrackingCopy → Except EngineError TrackingCopy
  versionHash : ProtocolVersion → Nat

/-- `u64::MAX`, the gas limit used for system-contract calls. -/
def u64Max : Nat := 18446744073709551615

/-- The name of the payment-purse named key of the proof-of-stake contract
(`genesis::POS_PAYMENT_PURSE`; `genesis.rs` is not among the extracted
sources, the constant is modelled from the spec's "the PoS payment purse"). -/
def posPaymentPurseName : String := "pos_payment_purse"

/-- The fabricated system account used to run finalization
(`Account::new(SYSTEM_ACCOUNT_ADDR, default, URef::new(default,
READ_ADD_WRITE), default, default)`). -/
def systemAccount : Account :=
  ⟨systemAccountAddr, [], ⟨0, AccessRights.readAddWrite⟩, [], ⟨1, 1⟩⟩

/-- The `finalize_payment` runtime arguments
(`{amount, account, target}`). -/
def finalizeArgs (amount accountHash : Nat) (target : URefT) : RuntimeArgsT :=
  [("amount", CLVal.u512 amount),
   ("account", CLVal.accountHashV accountHash),
   ("target", CLVal.urefArg target.addr target.rights)]

/-- `RuntimeArgs::try_from(transfer_args)` (modelled as total). -/
def TransferArgs.toRuntimeArgs (ta : TransferArgs) : RuntimeArgsT :=
  (match ta.toAccount with
   | some t => [("to", CLVal.accountHashV t)]
   | none => []) ++
  [("source", CLVal.urefArg ta.source.addr ta.source.rights),
   ("target", CLVal.urefArg ta.target.addr ta.target.rights),
   ("amount", CLVal.u512 ta.amount),
   ("id", CLVal.optU64 ta.argId)]

/-- `EngineState::get_authorized_account`: look the account up and check
`can_authorize` / `can_deploy_with` against the deploy's authorization keys. -/
def getAuthorizedAccount (tc : TrackingCopy) (accountHash : Nat)
    (authorizationKeys : List Nat) : Except EngineError Account :=
  match getAccountTC tc accountHash with
  | Except.error _ => Except.error EngineError.authorization
  | Except.ok account =>
    if !(account.canAuthorize authorizationKeys) then Except.error EngineError.authorization
    else if !(account.canDeployWith authorizationKeys) then
      Except.error (EngineError.exec ExecErr.deploymentAuthorizationFailure)
    else Except.ok account

/-- The payment-phase dispatch of `deploy`: standard payment runs
`exec_standard_payment` under the account's context; any other metadata runs
`exec` with the module, base key and named keys the metadata selected. -/
def runPayment (o : Oracles) (paymentMetadata : DeployMetadata) (args : RuntimeArgsT)
    (baseKey : Key) (account : Account) (authKeys : List Nat) (gasLimit : Nat)
    (tc : TrackingCopy) : ExecutionResult × TrackingCopy :=
  match paymentMetadata with
  | DeployMetadata.system _ _ _ =>
    o.execStandardPayment args baseKey account account.namedKeys authKeys gasLimit tc
  | DeployMetadata.sessionMeta m ep =>
    o.exec m ep args baseKey account account.namedKeys authKeys gasLimit Phase.payment tc
  | DeployMetadata.contractMeta m bk nk ep =>
    o.exec m ep args bk account nk authKeys gasLimit Phase.payment tc

/-- The session-phase dispatch of `deploy`: a system-contract session runs
the system module under the contract's context; stored-contract metadata
runs under the contract's key and named keys; plain session wasm runs under
the account's context. -/
def runSession (o : Oracles) (systemModule : SystemModule) (sessionMetadata : DeployMetadata)
    (args : RuntimeArgsT) (baseKey : Key) (account : Account) (authKeys : List Nat)
    (gasLimit : Nat) (tc : TrackingCopy) : ExecutionResult × TrackingCopy :=
  match sessionMetadata with
  | DeployMetadata.system bk nk ep =>
    o.exec systemModule ep args bk account nk authKeys gasLimit Phase.session tc
  | DeployMetadata.sessionMeta m ep =>
    o.exec m ep args baseKey account account.namedKeys authKeys gasLimit Phase.session tc
  | DeployMetadata.contractMeta m bk nk ep =>
    o.exec m ep args bk account nk authKeys gasLimit Phase.session tc

/-- `EngineState::deploy`: the standard payment → session → finalize deploy
path.  `none` models the `expect("ExecutionResultBuilder not initialized
properly")` panic at the final build step; every other outcome is
`some (Err RootNotFound)` or `some (Ok execution_result)`. -/
def deployF (gs : GlobalState) (o : Oracles) (protocolVersion : ProtocolVersion)
    (prestateHash : Nat) (_blocktime : Nat) (d : DeployItem) (proposer : Nat) :
    Option (Except RootNotFound ExecutionResult) :=
  match getProtocolDataGS gs protocolVersion with
  | none =>
    some (Except.ok (ExecutionResult.preconditionFailure
      (EngineError.invalidProtocolVersion protocolVersion)))
  | some pd =>
    match checkoutGS gs prestateHash with
    | none => some (Except.error ⟨prestateHash⟩)
    | some baseMap =>
      let tc0 := TrackingCopy.new baseMap
      match o.getSystemModule tc0 with
      | Except.error e => some (Except.ok (ExecutionResult.preconditionFailure e))
      | Except.ok systemModule =>
        let baseKey := Key.account d.address
        match baseKey.intoAccount with
        | none => some (Except.ok (ExecutionResult.preconditionFailure EngineError.authorization))
        | some accountHash =>
          match getAuthorizedAccount tc0 accountHash d.authorizationKeys with
          | Except.error e => some (Except.ok (ExecutionResult.preconditionFailure e))
          | Except.ok account =>
            match o.getDeployMetadata d.session Phase.session tc0 with
            | Except.error e => some (Except.ok (ExecutionResult.preconditionFailure e))
            | Except.ok sessionMetadata =>
              match getPurseBalanceKeyTC tc0 (Key.uref account.mainPurse) with
              | Except.error e =>
                some (Except.ok (ExecutionResult.preconditionFailure (EngineError.exec e)))
              | Except.ok accountMainPurseBalanceKey =>
                match getPurseBalanceTC tc0 accountMainPurseBalanceKey with
                | Except.error e =>
                  some (Except.ok (ExecutionResult.preconditionFailure (EngineError.exec e)))
                | Except.ok accountMainPurseBalance =>
                  if accountMainPurseBalance < maxPaymentAmount then
                    some (Except.ok (ExecutionResult.preconditionFailure
                      EngineError.insufficientPayment))
                  else
                    match o.getDeployMetadata d.payment Phase.payment tc0 with
                    | Except.error e => some (Except.ok (ExecutionResult.preconditionFailure e))
                    | Except.ok paymentMetadata =>
                      let paymentArgs := d.payment.intoRuntimeArgs
                      let paymentRun := runPayment o paymentMetadata paymentArgs baseKey
                        account d.authorizationKeys maxPaymentAmount tc0
                      let paymentResult := paymentRun.1
                      let tcP := paymentRun.2
                      let paymentResultCost := paymentResult.cost
                      match getContractTC tcP pd.proofOfStake with
                      | Except.error e =>
                        some (Except.ok (ExecutionResult.preconditionFailure (EngineError.exec e)))
                      | Except.ok proofOfStakeContract =>
                        match alookup proofOfStakeContract.namedKeys posPaymentPurseName with
                        | none =>
                          some (Except.ok (ExecutionResult.preconditionFailure
                            EngineError.deployErr))
                        | some paymentPurseKey =>
                          match getPurseBalanceKeyTC tcP paymentPurseKey with
                          | Except.error e =>
                            some (Except.ok (ExecutionResult.preconditionFailure
                              (EngineError.exec e)))
                          | Except.ok paymentPurseBalanceKey =>
                            match getPurseBalanceTC tcP paymentPurseBalanceKey with
                            | Except.error e =>
                              some (Except.ok (ExecutionResult.preconditionFailure
                                (EngineError.exec e)))
                            | Except.ok paymentPurseBalance =>
                              match getAccountTC tcP proposer with
                              | Except.error e =>
                                some (Except.ok (ExecutionResult.preconditionFailure
                                  (EngineError.exec e)))
                              | Except.ok proposerAccount =>
                                let proposerPurse := proposerAccount.mainPurse
                                match paymentResult.checkForcedTransfer paymentPurseBalance with
                                | some forcedTransfer =>
                                  match getPurseBalanceKeyTC tcP (Key.uref proposerPurse) with
                                  | Except.error e =>
                                    some (Except.ok (ExecutionResult.preconditionFailure
                                      (EngineError.exec e)))
                                  | Except.ok proposerMainPurseBalanceKey =>
                                    let error :=
                                      match forcedTransfer with
                                      | ForcedTransferResult.insufficientPayment =>
                                        EngineError.insufficientPayment
                                      | ForcedTransferResult.paymentFailure =>
                                        paymentResult.takeError.getD
                                          EngineError.insufficientPayment
                                    match ExecutionResult.newPaymentCodeError error
                                        maxPaymentAmount accountMainPurseBalance
                                        accountMainPurseBalanceKey proposerMainPurseBalanceKey with
                                    | some executionResult => some (Except.ok executionResult)
                                    | none =>
                                      some (Except.ok (ExecutionResult.preconditionFailure
                                        (EngineError.exec ExecErr.arithmetic)))
                                | none =>
                                  let builder1 :=
                                    ExecutionResultBuilder.empty.setPayment paymentResult
                                  let sessionTc0 := tcP.fork
                                  let sessionArgs := d.session.intoRuntimeArgs
                                  let sessionGasLimit := paymentPurseBalance - paymentResultCost
                                  let sessionRun := runSession o systemModule sessionMetadata
                                    sessionArgs baseKey account d.authorizationKeys
                                    sessionGasLimit sessionTc0
                                  let sessionResult0 := sessionRun.1
                                  let deployInfo : DeployInfoV :=
                                    ⟨d.deployHash, sessionResult0.transfers, account.accountHash,
                                      account.mainPurse,
                                      paymentResultCost + sessionResult0.cost⟩
                                  let sessionTc1 := sessionRun.2.writeKV
                                    (Key.deployInfo d.deployHash)
                                    (StoredValue.deployInfoV deployInfo)
                                  let afterSession :=
                                    if sessionResult0.isFailure then
                                      (sessionResult0, tcP.fork)
                                    else
                                      (sessionResult0.withEffect sessionTc1.effect, sessionTc1)
                                  let sessionResult := afterSession.1
                                  let postSessionTc := afterSession.2
                                  let builder2 := builder1.setSession sessionResult
                                  let finalizationTc := postSessionTc.fork
                                  let finalizeCostMotes := builder2.totalCost
                                  match getContractTC finalizationTc pd.proofOfStake with
                                  | Except.error e =>
                                    some (Except.ok (ExecutionResult.preconditionFailure
                                      (EngineError.exec e)))
                                  | Except.ok proofOfStakeContract2 =>
                                    let finalizeRun := o.execSystemContract
                                      SysCall.finalizePaymentCall
                                      (finalizeArgs finalizeCostMotes accountHash proposerPurse)
                                      proofOfStakeContract2.namedKeys []
                                      (Key.hashK pd.proofOfStake) systemAccount
                                      d.authorizationKeys u64Max Phase.finalizePayment
                                      finalizationTc
                                    let finalizeResult := finalizeRun.2.1
                                    let builder3 := builder2.setFinalize finalizeResult
                                    match builder3.build with
                                    | some ret => some (Except.ok ret)
                                    | none => none

/-- `mint::Error::try_from(u8)`: the mint error codes are a small contiguous
range of `u8`s; out-of-range codes fail the conversion.  Modelled from the
spec: five mint errors "each mapped to a distinct `u8` code". -/
def mintErrTryFrom (code : Nat) : Option Nat :=
  if code < 5 then some code else none

/-- The target-mode step of `transfer`: `Unknown` and `PurseExists` are
no-ops; `CreateAccount` mints a purse via the mint's `create_purse` and
writes the new account, failing with the call's result when no purse comes
back. -/
def transferTargetStep (o : Oracles) (mode : TransferTargetMode) (mintNamedKeys : NamedKeys)
    (mintBaseKey : Key) (account : Account) (authKeys : List Nat) (tc : TrackingCopy) :
    Except ExecutionResult (List Key × TrackingCopy) :=
  match mode with
  | TransferTargetMode.unknown => Except.ok ([], tc)
  | TransferTargetMode.purseExists _ => Except.ok ([], tc)
  | TransferTargetMode.createAccount publicKey =>
    let createRun := o.execSystemContract SysCall.createPurse [] mintNamedKeys []
      mintBaseKey account authKeys u64Max Phase.session tc
    match createRun.1.bind SysValue.asURef with
    | some mainPurse =>
      let newAccount := Account.create publicKey [] mainPurse
      Except.ok ([Key.uref mainPurse],
        createRun.2.2.writeKV (Key.account publicKey) (StoredValue.account newAccount))
    | none => Except.error createRun.2.1

/-- `EngineState::transfer`: the wasmless native-transfer path.  `none`
models the `expect("ExecutionResultBuilder not initialized properly")`
panic at the final build step. -/
def transferF (gs : GlobalState) (o : Oracles) (protocolVersion : ProtocolVersion)
    (prestateHash : Nat) (_blocktime : Nat) (d : DeployItem) (proposer : Nat) :
    Option (Except RootNotFound ExecutionResult) :=
  match getProtocolDataGS gs protocolVersion with
  | none =>
    some (Except.ok (ExecutionResult.preconditionFailure
      (EngineError.invalidProtocolVersion protocolVersion)))
  | some pd =>
    match checkoutGS gs prestateHash with
    | none => some (Except.error ⟨prestateHash⟩)
    | some baseMap =>
      let tc0 := TrackingCopy.new baseMap
      match o.getSystemModule tc0 with
      | Except.error e => some (Except.ok (ExecutionResult.preconditionFailure e))
      | Except.ok _systemModule =>
        let baseKey := Key.account d.address
        match baseKey.intoAccount with
        | none => some (Except.ok (ExecutionResult.preconditionFailure EngineError.authorization))
        | some _accountPublicKey =>
          match getAuthorizedAccount tc0 d.address d.authorizationKeys with
          | Except.error e => some (Except.ok (ExecutionResult.preconditionFailure e))
          | Except.ok account =>
            match getContractTC tc0 pd.mint with
            | Except.error e =>
              some (Except.ok (ExecutionResult.preconditionFailure (EngineError.exec e)))
            | Except.ok mintContract =>
              let mintNamedKeys := mintContract.namedKeys
              let mintBaseKey := Key.hashK pd.mint
              match getContractTC tc0 pd.proofOfStake with
              | Except.error e =>
                some (Except.ok (ExecutionResult.preconditionFailure (EngineError.exec e)))
              | Except.ok posContract =>
                let posNamedKeys := posContract.namedKeys
                let posBaseKey := Key.hashK pd.proofOfStake
                let inputRuntimeArgs := d.session.intoRuntimeArgs
                match o.transferTargetMode inputRuntimeArgs tc0 with
                | Except.error error =>
                  some (Except.ok (ExecutionResult.failure error [] [] 0))
                | Except.ok mode =>
                  let afterMode := transferTargetStep o mode mintNamedKeys mintBaseKey
                    account d.authorizationKeys tc0
                  match afterMode with
                  | Except.error executionResult => some (Except.ok executionResult)
                  | Except.ok modeOut =>
                    let mintExtraKeys := modeOut.1
                    let tc1 := modeOut.2
                    match o.buildTransferArgs inputRuntimeArgs account tc1 with
                    | Except.error error =>
                      some (Except.ok (ExecutionResult.failure error [] [] 0))
                    | Except.ok transferArgs =>
                      let sourceUref := transferArgs.source
                      match getPurseBalanceKeyTC tc1 (Key.uref sourceUref) with
                      | Except.error e =>
                        some (Except.ok (ExecutionResult.failure (EngineError.exec e) [] [] 0))
                      | Except.ok sourcePurseBalanceKey =>
                        match getPurseBalanceTC tc1 sourcePurseBalanceKey with
                        | Except.error e =>
                          some (Except.ok (ExecutionResult.failure (EngineError.exec e) [] [] 0))
                        | Except.ok sourcePurseBalance =>
                          let wasmlessTransferCost := pd.systemConfig.wasmlessTransferCost
                          if sourcePurseBalance < wasmlessTransferCost then
                            some (Except.ok (ExecutionResult.failure
                              EngineError.insufficientPayment [] [] 0))
                          else
                            let getPurseRun := o.execSystemContract SysCall.getPaymentPurse []
                              posNamedKeys [] posBaseKey account d.authorizationKeys u64Max
                              Phase.payment tc1
                            match getPurseRun.1.bind SysValue.asURef with
                            | none =>
                              some (Except.ok (ExecutionResult.failure
                                EngineError.insufficientPayment [] [] 0))
                            | some paymentUref =>
                              match getPurseRun.2.1.takeError with
                              | some error =>
                                some (Except.ok (ExecutionResult.failure error [] [] 0))
                              | none =>
                                let tc2 := getPurseRun.2.2
                                let newTransferArgs : TransferArgs :=
                                  ⟨transferArgs.toAccount, transferArgs.source, paymentUref,
                                    wasmlessTransferCost, transferArgs.argId⟩
                                let payRun := o.execSystemContract SysCall.transferCall
                                  newTransferArgs.toRuntimeArgs mintNamedKeys mintExtraKeys
                                  mintBaseKey account d.authorizationKeys u64Max Phase.payment
                                  tc2
                                match payRun.2.1.takeError with
                                | some error =>
                                  some (Except.ok (ExecutionResult.failure error [] [] 0))
                                | none =>
                                  let transferResult : Except ApiErr Unit :=
                                    match payRun.1.bind SysValue.asMintResult with
                                    | some MintRet.okU => Except.ok ()
                                    | some (MintRet.errU mintError) =>
                                      match mintErrTryFrom mintError with
                                      | some code => Except.error (ApiErr.mintError code)
                                      | none => Except.error ApiErr.transferErr
                                    | none => Except.error ApiErr.transferErr
                                  match transferResult with
                                  | Except.error apiError =>
                                    some (Except.ok (ExecutionResult.failure
                                      (EngineError.exec (ExecErr.revertErr apiError)) [] [] 0))
                                  | Except.ok _ =>
                                    let tc3 := payRun.2.2
                                    match getPurseBalanceKeyTC tc3 (Key.uref paymentUref) with
                                    | Except.error e =>
                                      some (Except.ok (ExecutionResult.failure
                                        (EngineError.exec e) [] [] 0))
                                    | Except.ok paymentPurseBalanceKey =>
                                      match getPurseBalanceTC tc3 paymentPurseBalanceKey with
                                      | Except.error e =>
                                        some (Except.ok (ExecutionResult.failure
                                          (EngineError.exec e) [] [] 0))
                                      | Except.ok paymentPurseBalance =>
                                        let paymentGas := paymentPurseBalance
                                        let paymentResult := payRun.2.1.withCost paymentGas
                                        match o.buildTransferArgs inputRuntimeArgs account tc3 with
                                        | Except.error error =>
                                          some (Except.ok (ExecutionResult.failure
                                            error [] [] 0))
                                        | Except.ok sessionTransferArgs =>
                                          let sessionRun := o.execSystemContract
                                            SysCall.transferCall
                                            sessionTransferArgs.toRuntimeArgs mintNamedKeys
                                            mintExtraKeys mintBaseKey account
                                            d.authorizationKeys u64Max Phase.session tc3
                                          let sessionResult0 := sessionRun.2.1.withCost 0
                                          let tc4 := sessionRun.2.2
                                          match getAccountTC tc4 proposer with
                                          | Except.error e =>
                                            some (Except.ok (ExecutionResult.preconditionFailure
                                              (EngineError.exec e)))
                                          | Except.ok proposerAccount =>
                                            let proposerPurse := proposerAccount.mainPurse
                                            let finalizationTc := tc4.fork
                                            let finalizeRun := o.execSystemContract
                                              SysCall.finalizePaymentCall
                                              (finalizeArgs paymentResult.cost d.address
                                                proposerPurse)
                                              posNamedKeys [] (Key.hashK pd.proofOfStake)
                                              systemAccount d.authorizationKeys u64Max
                                              Phase.finalizePayment finalizationTc
                                            let finalizeResult := finalizeRun.2.1
                                            let deployInfo : DeployInfoV :=
                                              ⟨d.deployHash, sessionResult0.transfers,
                                                account.accountHash, account.mainPurse,
                                                paymentResult.cost + sessionResult0.cost⟩
                                            let tc5 := tc4.writeKV
                                              (Key.deployInfo d.deployHash)
                                              (StoredValue.deployInfoV deployInfo)
                                            let sessionResult :=
                                              if sessionResult0.isSuccess then
                                                sessionResult0.withEffect tc5.effect
                                              else sessionResult0
                                            let builder :=
                                              ((ExecutionResultBuilder.empty.setPayment
                                                paymentResult).setSession
                                                sessionResult).setFinalize finalizeResult
                                            match builder.build with
                                            | some ret => some (Except.ok ret)
                                            | none => none

/-- One iteration of the `run_execute` loop: a pre-failed deploy slot yields
its carried result; otherwise a `Transfer` session selects the wasmless
transfer path and anything else the standard deploy path.  Every deploy gets
`exec_request.parent_state_hash` as its prestate. -/
def execDeployItem (gs : GlobalState) (o : Oracles) (protocolVersion : ProtocolVersion)
    (parentStateHash blockTime : Nat) (proposer : Nat)
    (item : Except ExecutionResult DeployItem) :
    Option (Except RootNotFound ExecutionResult) :=
  match item with
  | Except.error execResult => some (Except.ok execResult)
  | Except.ok d =>
    if d.session.isTransfer then
      transferF gs o protocolVersion parentStateHash blockTime d proposer
    else
      deployF gs o protocolVersion parentStateHash blockTime d proposer

/-- The `run_execute` deploy loop: results accumulate in input order; a
`RootNotFound` from any deploy aborts the whole request. -/
def runExecuteGo (gs : GlobalState) (o : Oracles) (protocolVersion : ProtocolVersion)
    (parentStateHash blockTime : Nat) (proposer : Nat) :
    List (Except ExecutionResult DeployItem) →
    Option (Except RootNotFound (List ExecutionResult))
  | [] => some (Except.ok [])
  | item :: rest =>
    match execDeployItem gs o protocolVersion parentStateHash blockTime proposer item with
    | none => none
    | some (Except.error e) => some (Except.error e)
    | some (Except.ok result) =>
      match runExecuteGo gs o protocolVersion parentStateHash blockTime proposer rest with
      | none => none
      | some (Except.error e) => some (Except.error e)
      | some (Except.ok results) => some (Except.ok (result :: results))

/-- `EngineState::run_execute`: execute every deploy of the request against
`parent_state_hash`, collecting results in input order. -/
def runExecuteE (gs : GlobalState) (o : Oracles) (req : ExecuteRequest) :
    Option (Except RootNotFound (List ExecutionResult)) :=
  runExecuteGo gs o req.protocolVersion req.parentStateHash req.blockTime req.proposer
    req.deploys

/-- Modelled from the spec: "deploys within a block are executed strictly
sequentially; each deploy sees the post-state of the previous deploy's
commit".  This is the spec's reading of `run_execute`, for comparison with
`runExecuteE`: after each deploy its effect is committed and the next deploy
runs against the new root. -/
def runExecuteSeqGo (o : Oracles) (protocolVersion : ProtocolVersion) (blockTime : Nat)
    (proposer : Nat) :
    GlobalState → Nat → List (Except ExecutionResult DeployItem) →
    Option (Except RootNotFound (List ExecutionResult))
  | _, _, [] => some (Except.ok [])
  | gs, root, item :: rest =>
    match execDeployItem gs o protocolVersion root blockTime proposer item with
    | none => none
    | some (Except.error e) => some (Except.error e)
    | some (Except.ok result) =>
      let next : GlobalState × Nat :=
        match commitGS gs root result.effect with
        | CommitOutcome.success gs' newRoot => (gs', newRoot)
        | _ => (gs, root)
      match runExecuteSeqGo o protocolVersion blockTime proposer next.1 next.2 rest with
      | none => none
      | some (Except.error e) => some (Except.error e)
      | some (Except.ok results) => some (Except.ok (result :: results))

/-- Modelled from the spec: `run_execute` under the spec's sequential-commit
reading (see `runExecuteSeqGo`). -/
def runExecuteSeqSpec (gs : GlobalState) (o : Oracles) (req : ExecuteRequest) :
    Option (Except RootNotFound (List ExecutionResult)) :=
  runExecuteSeqGo o req.protocolVersion req.blockTime req.proposer gs req.parentStateHash
    req.deploys

/-- `engine_state::era_validators::GetEraValidatorsError`. -/
inductive GetEraValidatorsError where
  | rootNotFoundG
  | eraValidatorsMissingG
  | engineErr (e : EngineError)
deriving DecidableEq, Repr

/-- The virtual system account used by `commit_step` and
`get_era_validators` (`Account::create(SYSTEM_ACCOUNT_ADDR, named_keys,
URef::new(default, READ_ADD_WRITE))`). -/
def virtualSystemAccount : Account :=
  Account.create systemAccountAddr [] ⟨0, AccessRights.readAddWrite⟩

/-- The runtime arguments of the `slash` auction call
(`{validator_public_keys}`). -/
def stepSlashArgs (slashedValidators : List Nat) : RuntimeArgsT :=
  [("validator_public_keys", CLVal.pubkeyListV slashedValidators)]

/-- The runtime arguments of the `distribute` auction call
(`{reward_factors}`). -/
def stepRewardArgs (rewardFactors : List (Nat × Nat)) : RuntimeArgsT :=
  [("reward_factors", CLVal.rewardFactorsV rewardFactors)]

/-- A system-contract call as performed by `commit_step` and
`get_era_validators`: as the virtual system account, authorized by
`SYSTEM_ACCOUNT_ADDR` alone, with gas limit `u64::MAX`, in the session
phase, with no extra keys. -/
def stepSysCall (o : Oracles) (call : SysCall) (args : RuntimeArgsT) (namedKeys : NamedKeys)
    (baseKey : Key) (tc : TrackingCopy) : Option SysValue × ExecutionResult × TrackingCopy :=
  o.execSystemContract call args namedKeys [] baseKey virtualSystemAccount
    [systemAccountAddr] u64Max Phase.session tc

/-- The conditional auction step of `commit_step`: when `run_auction = true`
it performs the `run_auction` call (propagating its error), and when
`run_auction = false` it performs no call at all and passes the tracking
copy through unchanged. -/
def stepAuctionPhase (o : Oracles) (runAuction : Bool) (namedKeys : NamedKeys)
    (baseKey : Key) (tc : TrackingCopy) : Except EngineError TrackingCopy :=
  if runAuction then
    let auctionRun := stepSysCall o SysCall.runAuction [] namedKeys baseKey tc
    match auctionRun.2.1.takeError with
    | some execError => Except.error execError
    | none => Except.ok auctionRun.2.2
  else Except.ok tc

/-- `EngineState::get_era_validators`: run the auction's
`get_era_validators` as the virtual system account on a tracking copy of the
given state root. -/
def getEraValidatorsF (gs : GlobalState) (o : Oracles) (stateHash : Nat)
    (protocolVersion : ProtocolVersion) : Except GetEraValidatorsError EraValidatorsT :=
  match checkoutGS gs stateHash with
  | none => Except.error GetEraValidatorsError.rootNotFoundG
  | some m =>
    let tc := TrackingCopy.new m
    match getProtocolDataGS gs protocolVersion with
    | none =>
      Except.error (GetEraValidatorsError.engineErr
        (EngineError.invalidProtocolVersion protocolVersion))
    | some pd =>
      match getContractTC tc pd.auction with
      | Except.error e => Except.error (GetEraValidatorsError.engineErr (EngineError.exec e))
      | Except.ok auctionContract =>
        match o.getSystemModule tc with
        | Except.error e => Except.error (GetEraValidatorsError.engineErr e)
        | Except.ok _ =>
          let run := stepSysCall o SysCall.getEraValidators []
            auctionContract.namedKeys (Key.hashK pd.auction) tc
          match run.2.1.takeError with
          | some error => Except.error (GetEraValidatorsError.engineErr error)
          | none =>
            match run.1.bind SysValue.asEraValidators with
            | none => Except.error GetEraValidatorsError.eraValidatorsMissingG
            | some eraValidators => Except.ok eraValidators

/-- `engine_state::step::StepRequest`.  The two `bytesrepr`-deserialized
fields (`slashed_validators`, `reward_factors`) are carried as the outcome
of their deserialization (`step.rs` is not among the extracted sources). -/
structure StepRequest where
  preStateHash : Nat
  protocolVersion : ProtocolVersion
  slashedValidators : Except Nat (List Nat)
  rewardFactors : Except Nat (List (Nat × Nat))
  runAuction : Bool
  nextEraId : Nat
deriving Repr

/-- `engine_state::step::StepResult` (modelled from the spec and the
variants constructed in `commit_step`). -/
inductive StepResult where
  | rootNotFoundS
  | invalidProtocolVersionS
  | preconditionError
  | serializationS (code : Nat)
  | slashingError (e : EngineError)
  | distributeError (e : EngineError)
  | auctionError (e : EngineError)
  | keyNotFoundS (k : Key)
  | typeMismatchS
  | getEraValidatorsErrorS (e : GetEraValidatorsError)
  | eraValidatorsMissingS (era : Nat)
  | stepSuccess (postStateHash : Nat) (nextEraValidators : ValidatorWeights)
deriving DecidableEq, Repr

/-- `EngineState::commit_step`: slash, distribute, optionally run the
auction — all as the virtual system account on one tracking copy — then
commit and look the next era's validators up at the committed post-state.
The provider state is threaded explicitly: every pre-commit error path
returns the input state unchanged. -/
def commitStepF (gs : GlobalState) (o : Oracles) (req : StepRequest) :
    Except EngineError StepResult × GlobalState :=
  match getProtocolDataGS gs req.protocolVersion with
  | none => (Except.ok StepResult.invalidProtocolVersionS, gs)
  | some pd =>
    match checkoutGS gs req.preStateHash with
    | none => (Except.ok StepResult.rootNotFoundS, gs)
    | some m =>
      let tc0 := TrackingCopy.new m
      match getContractTC tc0 pd.auction with
      | Except.error _ => (Except.ok StepResult.preconditionError, gs)
      | Except.ok auctionContract =>
        match o.getSystemModule tc0 with
        | Except.error _ => (Except.ok StepResult.preconditionError, gs)
        | Except.ok _ =>
          let namedKeys := auctionContract.namedKeys
          let baseKey := Key.hashK pd.auction
          match req.slashedValidators with
          | Except.error code => (Except.ok (StepResult.serializationS code), gs)
          | Except.ok slashedValidators =>
            let slashArgs := stepSlashArgs slashedValidators
            let slashRun := stepSysCall o SysCall.slash slashArgs namedKeys baseKey tc0
            match slashRun.2.1.takeError with
            | some execError => (Except.ok (StepResult.slashingError execError), gs)
            | none =>
              let tc1 := slashRun.2.2
              match req.rewardFactors with
              | Except.error code => (Except.ok (StepResult.serializationS code), gs)
              | Except.ok rewardFactors =>
                let rewardArgs := stepRewardArgs rewardFactors
                let distributeRun := stepSysCall o SysCall.distributeRewards rewardArgs
                  namedKeys baseKey tc1
                match distributeRun.2.1.takeError with
                | some execError => (Except.ok (StepResult.distributeError execError), gs)
                | none =>
                  let tc2 := distributeRun.2.2
                  match stepAuctionPhase o req.runAuction namedKeys baseKey tc2 with
                  | Except.error execError =>
                    (Except.ok (StepResult.auctionError execError), gs)
                  | Except.ok tc3 =>
                    let effects := tc3.effect
                    match commitGS gs req.preStateHash effects with
                    | CommitOutcome.rootNotFoundC => (Except.ok StepResult.rootNotFoundS, gs)
                    | CommitOutcome.errC (CommitErr.keyNotFoundC k) =>
                      (Except.ok (StepResult.keyNotFoundS k), gs)
                    | CommitOutcome.errC CommitErr.typeMismatchC =>
                      (Except.ok StepResult.typeMismatchS, gs)
                    | CommitOutcome.errC CommitErr.serializationC =>
                      (Except.ok (StepResult.serializationS 0), gs)
                    | CommitOutcome.success gs' postStateHash =>
                      match getEraValidatorsF gs' o postStateHash req.protocolVersion with
                      | Except.error error =>
                        (Except.ok (StepResult.getEraValidatorsErrorS error), gs')
                      | Except.ok eraValidators =>
                        match alookup eraValidators req.nextEraId with
                        | none =>
                          (Except.ok (StepResult.eraValidatorsMissingS req.nextEraId), gs')
                        | some validatorWeights =>
                          (Except.ok (StepResult.stepSuccess postStateHash validatorWeights),
                            gs')

/-- `casper_types::auction::VALIDATOR_SLOTS_KEY`. -/
def validatorSlotsKeyName : String := "validator_slots"

/-- `casper_types::auction::AUCTION_DELAY_KEY`. -/
def auctionDelayKeyName : String := "auction_delay"

/-- `casper_types::auction::LOCKED_FUNDS_PERIOD_KEY`. -/
def lockedFundsPeriodKeyName : String := "locked_funds_period"

/-- `casper_types::auction::UNBONDING_DELAY_KEY`. -/
def unbondingDelayKeyName : String := "unbonding_delay"

/-- `casper_types::mint::ROUND_SEIGNIORAGE_RATE_KEY`. -/
def roundSeigniorageRateKeyName : String := "round_seigniorage_rate"

/-- Outcome of a protocol-version bump check
(`casper_types::VersionCheckResult`). -/
inductive VersionCheck where
  | majorBump
  | minorOrPatch
  | invalid
deriving DecidableEq, Repr

/-- `ProtocolVersion::check_next_version`.  Modelled from the spec
(`casper_types` version logic is not among the extracted sources): a bump to
`(major+1, 0, 0)` is a major-version upgrade; a forward bump within the same
major version is a minor/patch upgrade; anything else is invalid. -/
def checkNextVersion (cur nxt : ProtocolVersion) : VersionCheck :=
  if nxt.major = cur.major + 1 ∧ nxt.minor = 0 ∧ nxt.patch = 0 then VersionCheck.majorBump
  else if nxt.major = cur.major ∧
      (cur.minor < nxt.minor ∨ (nxt.minor = cur.minor ∧ cur.patch < nxt.patch)) then
    VersionCheck.minorOrPatch
  else VersionCheck.invalid

/-- `engine_state::upgrade::UpgradeConfig`. -/
structure UpgradeConfig where
  preStateHash : Nat
  currentProtocolVersion : ProtocolVersion
  newProtocolVersion : ProtocolVersion
  wasmConfig : Option Nat
  systemConfig : Option SystemConfigT
  newValidatorSlots : Option Nat
  newAuctionDelay : Option Nat
  newLockedFundsPeriod : Option Nat
  newUnbondingDelay : Option Nat
  newRoundSeigniorageRate : Option (Nat × Nat)
deriving Repr

/-- `engine_state::upgrade::UpgradeResult` (modelled from the spec:
`{post_state_hash, effect}` on success, else the commit failure). -/
inductive UpgradeResult where
  | rootNotFoundU
  | keyNotFoundU (k : Key)
  | typeMismatchU
  | serializationU
  | successU (postStateHash : Nat) (effect : Effect)
deriving DecidableEq, Repr

/-- One conditional named-key overwrite step of `commit_upgrade`: look the
contract up in the tracking copy, index its named keys (`named_keys()[KEY]`
is a `BTreeMap` index that panics when the name is absent — modelled as
`none`), and write the new `CLValue` under the named key. -/
def writeConfigValue (tc : TrackingCopy) (contractHash : Nat) (keyName : String)
    (value : CLVal) : Option (Except ExecErr TrackingCopy) :=
  match getContractTC tc contractHash with
  | Except.error e => some (Except.error e)
  | Except.ok contract =>
    match alookup contract.namedKeys keyName with
    | none => none
    | some namedKey => some (Except.ok (tc.writeKV namedKey (StoredValue.clValue value)))

/-- One `if let Some(value) = ...` config block of `commit_upgrade`: when
the optional value is supplied, overwrite the named key with `mk value`;
when it is absent, do nothing. -/
def optConfigStep {α : Type} (maybe : Option α) (mk : α → CLVal) (tc : TrackingCopy)
    (contractHash : Nat) (keyName : String) : Option (Except ExecErr TrackingCopy) :=
  match maybe with
  | none => some (Except.ok tc)
  | some v => writeConfigValue tc contractHash keyName (mk v)

/-- `EngineState::commit_upgrade`: validate the version bump, optionally run
the major-version system-contract upgrade, persist the new protocol data,
conditionally overwrite the four auction config named keys and the mint's
round seigniorage rate, and commit.  The outer `none` is the named-key index
panic; the provider state is threaded explicitly. -/
def commitUpgradeF (gs : GlobalState) (o : Oracles) (cfg : UpgradeConfig) :
    Option (Except EngineError UpgradeResult × GlobalState) :=
  match checkoutGS gs cfg.preStateHash with
  | none => some (Except.ok UpgradeResult.rootNotFoundU, gs)
  | some m =>
    let tc0 := TrackingCopy.new m
    match getProtocolDataGS gs cfg.currentProtocolVersion with
    | none =>
      some (Except.error (EngineError.invalidProtocolVersion cfg.currentProtocolVersion), gs)
    | some currentProtocolData =>
      let upgradeCheck := checkNextVersion cfg.currentProtocolVersion cfg.newProtocolVersion
      if upgradeCheck = VersionCheck.invalid then
        some (Except.error (EngineError.invalidProtocolVersion cfg.newProtocolVersion), gs)
      else
        match (if upgradeCheck = VersionCheck.majorBump then
                 o.upgradeSystemContractsMajor tc0
               else Except.ok tc0) with
        | Except.error e => some (Except.error e, gs)
        | Except.ok tc1 =>
          let newProtocolData : ProtocolData :=
            { wasmConfig := cfg.wasmConfig.getD currentProtocolData.wasmConfig
              systemConfig := cfg.systemConfig.getD currentProtocolData.systemConfig
              mint := currentProtocolData.mint
              proofOfStake := currentProtocolData.proofOfStake
              standardPayment := currentProtocolData.standardPayment
              auction := currentProtocolData.auction }
          let gs1 := putProtocolDataGS gs cfg.newProtocolVersion newProtocolData
          match optConfigStep cfg.newValidatorSlots CLVal.u32 tc1
              newProtocolData.auction validatorSlotsKeyName with
          | none => none
          | some (Except.error e) => some (Except.error (EngineError.exec e), gs1)
          | some (Except.ok tc2) =>
            match optConfigStep cfg.newAuctionDelay CLVal.u64 tc2
                newProtocolData.auction auctionDelayKeyName with
            | none => none
            | some (Except.error e) => some (Except.error (EngineError.exec e), gs1)
            | some (Except.ok tc3) =>
              match optConfigStep cfg.newLockedFundsPeriod CLVal.u64 tc3
                  newProtocolData.auction lockedFundsPeriodKeyName with
              | none => none
              | some (Except.error e) => some (Except.error (EngineError.exec e), gs1)
              | some (Except.ok tc4) =>
                match optConfigStep cfg.newUnbondingDelay CLVal.u64 tc4
                    newProtocolData.auction unbondingDelayKeyName with
                | none => none
                | some (Except.error e) => some (Except.error (EngineError.exec e), gs1)
                | some (Except.ok tc5) =>
                  match optConfigStep cfg.newRoundSeigniorageRate
                      (fun rate => CLVal.rateV rate.1 rate.2) tc5
                      newProtocolData.mint roundSeigniorageRateKeyName with
                  | none => none
                  | some (Except.error e) => some (Except.error (EngineError.exec e), gs1)
                  | some (Except.ok tc6) =>
                    let effects := tc6.effect
                    match commitGS gs1 cfg.preStateHash effects with
                    | CommitOutcome.rootNotFoundC =>
                      some (Except.ok UpgradeResult.rootNotFoundU, gs1)
                    | CommitOutcome.errC (CommitErr.keyNotFoundC k) =>
                      some (Except.ok (UpgradeResult.keyNotFoundU k), gs1)
                    | CommitOutcome.errC CommitErr.typeMismatchC =>
                      some (Except.ok UpgradeResult.typeMismatchU, gs1)
                    | CommitOutcome.errC CommitErr.serializationC =>
                      some (Except.ok UpgradeResult.serializationU, gs1)
                    | CommitOutcome.success gs2 postStateHash =>
                      some (Except.ok (UpgradeResult.successU postStateHash effects), gs2)

/-- Whether an effect holds a `Write` transform for a key. -/
def effHasWrite (e : Effect) (k : Key) : Bool :=
  match lookupT e k with
  | some (Transform.writeT _) => true
  | _ => false

/-- Whether an effect has an entry for a key. -/
def containsKeyB : Effect → Key → Bool
  | [], _ => false
  | (k', _) :: rest, k => k' = k || containsKeyB rest k

/-- Unique keys in an effect (`AdditiveMap` keys are unique). -/
def keysNodupB : Effect → Bool
  | [] => true
  | (k, _) :: rest => !containsKeyB rest k && keysNodupB rest

/-- Success/failure fingerprint of a `run_execute` outcome, used to compare
two outcomes without comparing whole results. -/
def resultsOutcome : Option (Except RootNotFound (List ExecutionResult)) → List Bool
  | some (Except.ok rs) => rs.map ExecutionResult.isSuccess
  | _ => []

/-- Test fixture: account `A` (hash 1, purse 10, self-associated with
weight 1, thresholds 1/1). -/
def testAccountA : Account := ⟨1, [], ⟨10, AccessRights.readAddWrite⟩, [(1, 1)], ⟨1, 1⟩⟩

/-- Test fixture: the proposer account (hash 2, purse 20). -/
def testProposerAccount : Account := ⟨2, [], ⟨20, AccessRights.readAddWrite⟩, [(2, 1)], ⟨1, 1⟩⟩

/-- Test fixture: the proof-of-stake payment purse (address 30). -/
def testPaymentPurse : URefT := ⟨30, AccessRights.readAddWrite⟩

/-- Test fixture: the proof-of-stake contract. -/
def testPosContract : Contract := ⟨[(posPaymentPurseName, Key.uref testPaymentPurse)]⟩

/-- Test fixture: the auction contract with its four config named keys. -/
def testAuctionContract : Contract :=
  ⟨[(validatorSlotsKeyName, Key.uref ⟨40, AccessRights.readAddWrite⟩),
    (auctionDelayKeyName, Key.uref ⟨41, AccessRights.readAddWrite⟩),
    (lockedFundsPeriodKeyName, Key.uref ⟨42, AccessRights.readAddWrite⟩),
    (unbondingDelayKeyName, Key.uref ⟨43, AccessRights.readAddWrite⟩)]⟩

/-- Test fixture: the mint contract with its seigniorage-rate named key. -/
def testMintContract : Contract :=
  ⟨[(roundSeigniorageRateKeyName, Key.uref ⟨44, AccessRights.readAddWrite⟩)]⟩

/-- Test fixture: one state root holding the two accounts, their balances,
the three system contracts and the auction/mint config values; `balA` is
account `A`'s main-purse balance. -/
def testStore (balA : Nat) : StoreMap :=
  [(Key.account 1, StoredValue.account testAccountA),
   (Key.balance 10, StoredValue.clValue (CLVal.u512 balA)),
   (Key.account 2, StoredValue.account testProposerAccount),
   (Key.balance 20, StoredValue.clValue (CLVal.u512 0)),
   (Key.hashK 100, StoredValue.contract testPosContract),
   (Key.balance 30, StoredValue.clValue (CLVal.u512 0)),
   (Key.hashK 101, StoredValue.contract testMintContract),
   (Key.hashK 103, StoredValue.contract testAuctionContract),
   (Key.uref ⟨40, AccessRights.readAddWrite⟩, StoredValue.clValue (CLVal.u32 5)),
   (Key.uref ⟨44, AccessRights.readAddWrite⟩, StoredValue.clValue (CLVal.rateV 1 100))]

/-- Test fixture: protocol data (mint 101, pos 100, standard payment 102,
auction 103, wasmless transfer cost 10000). -/
def testProtocolData : ProtocolData := ⟨0, ⟨10000⟩, 101, 100, 102, 103⟩

/-- Protocol version 1.0.0. -/
def pv100 : ProtocolVersion := ⟨1, 0, 0⟩

/-- Protocol version 1.1.0. -/
def pv110 : ProtocolVersion := ⟨1, 1, 0⟩

/-- Test fixture: global state with a single root (`testStore balA`) and
protocol data for 1.0.0. -/
def testGS (balA : Nat) : GlobalState := ⟨[testStore balA], [(pv100, testProtocolData)]⟩

/-- The empty successful execution result. -/
def noExecResult : ExecutionResult := ExecutionResult.success [] [] 0

/-- Test fixture: payment-phase effect (pay 1000000 motes from `A`'s purse
into the payment purse). -/
def testPayEffect : Effect :=
  [(Key.balance 10, Transform.writeT (StoredValue.clValue (CLVal.u512 2499000000))),
   (Key.balance 30, Transform.writeT (StoredValue.clValue (CLVal.u512 1000000)))]

/-- Test fixture: session-phase effect. -/
def testSessEffect : Effect :=
  [(Key.bid 77, Transform.writeT (StoredValue.clValue (CLVal.u512 1)))]

/-- Test fixture: finalize-phase effect (drain the payment purse). -/
def testFinEffect : Effect :=
  [(Key.balance 30, Transform.writeT (StoredValue.clValue (CLVal.u512 0)))]

/-- Test oracles: standard payment pays 1000000 motes, the session succeeds
with a small write, finalization drains the payment purse; payment metadata
resolves empty module bytes to standard payment, anything else to session
wasm. -/
def oracleOk : Oracles :=
  { getSystemModule := fun _ => Except.ok ⟨0⟩
    getDeployMetadata := fun item _ _ =>
      match item with
      | ExecutableDeployItem.moduleBytes [] _ =>
        Except.ok (DeployMetadata.system (Key.hashK 102) [] "pay")
      | _ => Except.ok (DeployMetadata.sessionMeta ⟨1⟩ "call")
    exec := fun _ _ _ _ _ _ _ _ _ tc =>
      (ExecutionResult.success testSessEffect [] 1000, ⟨tc.base, unionEff tc.log testSessEffect⟩)
    execStandardPayment := fun _ _ _ _ _ _ tc =>
      (ExecutionResult.success testPayEffect [] 1000000,
        ⟨tc.base, unionEff tc.log testPayEffect⟩)
    execSystemContract := fun call _ _ _ _ _ _ _ _ tc =>
      match call with
      | SysCall.finalizePaymentCall =>
        (some SysValue.unitRet, ExecutionResult.success testFinEffect [] 0,
          ⟨tc.base, unionEff tc.log testFinEffect⟩)
      | _ => (some SysValue.unitRet, noExecResult, tc)
    transferTargetMode := fun _ _ => Except.ok TransferTargetMode.unknown
    buildTransferArgs := fun _ _ _ =>
      Except.ok ⟨none, ⟨10, AccessRights.readAddWrite⟩, ⟨20, AccessRights.readAddWrite⟩,
        100, none⟩
    upgradeSystemContractsMajor := fun tc => Except.ok tc
    versionHash := fun _ => 0 }

/-- Test oracles: like `oracleOk` but the session wasm reverts. -/
def oracleSessFail : Oracles :=
  { oracleOk with
    exec := fun _ _ _ _ _ _ _ _ _ tc =>
      (ExecutionResult.failure (EngineError.exec (ExecErr.revertErr (ApiErr.mintError 1)))
        [] [] 50, tc) }

/-- Test oracles: like `oracleOk` but the payment code fails without paying. -/
def oraclePayFail : Oracles :=
  { oracleOk with
    execStandardPayment := fun _ _ _ _ _ _ tc =>
      (ExecutionResult.failure EngineError.deployErr [] [] 0, tc) }

/-- Test fixture: a standard deploy from account 1 (session wasm, standard
payment, authorized by key 1, deploy hash 55). -/
def testDeployStd : DeployItem :=
  ⟨1, ExecutableDeployItem.moduleBytes [1] [], ExecutableDeployItem.moduleBytes [] [], 1,
    [1], 55⟩

/-- Test fixture: the same deploy but authorized by key 3, which is not an
associated key of account 1 (total weight 0 < threshold 1). -/
def testDeployWeakAuth : DeployItem :=
  ⟨1, ExecutableDeployItem.moduleBytes [1] [], ExecutableDeployItem.moduleBytes [] [], 1,
    [3], 55⟩

/-- Test fixture: a native transfer deploy from account 1 with key 3. -/
def testTransferWeakAuth : DeployItem :=
  ⟨1, ExecutableDeployItem.transferItem [], ExecutableDeployItem.moduleBytes [] [], 1,
    [3], 56⟩

/-- Test fixture: an execute request with two identical standard deploys. -/
def testRequest2 : ExecuteRequest :=
  ⟨0, 0, pv100, 2, [Except.ok testDeployStd, Except.ok testDeployStd]⟩

/-- The execution result the fixtures produce for `testDeployStd` against
`testGS maxPaymentAmount` under `oracleOk` (computed by evaluation). -/
def testDeployResult : ExecutionResult :=
  match deployF (testGS maxPaymentAmount) oracleOk pv100 0 0 testDeployStd 2 with
  | some (Except.ok r) => r
  | _ => noExecResult

/-- Whether an engine outcome is an authorization precondition failure: a
`Failure` whose error is `Authorization` or
`Exec(DeploymentAuthorizationFailure)`, with empty effect and zero cost. -/
def authFailure? : Option (Except RootNotFound ExecutionResult) → Bool
  | some (Except.ok (ExecutionResult.failure EngineError.authorization [] [] 0)) => true
  | some (Except.ok (ExecutionResult.failure
      (EngineError.exec ExecErr.deploymentAuthorizationFailure) [] [] 0)) => true
  | _ => false

/-- The effect of an engine outcome (empty for aborts/panics). -/
def resultEffectOf : Option (Except RootNotFound ExecutionResult) → Effect
  | some (Except.ok r) => r.effect
  | _ => []

/-- Test oracles for the wasmless transfer path: `get_payment_purse` yields
the payment purse, the mint transfer succeeds (paying 1000000 motes into the
payment purse during the payment phase), finalization drains it. -/
def oracleTransferOk : Oracles :=
  { oracleOk with
    execSystemContract := fun call _ _ _ _ _ _ _ phase tc =>
      match call with
      | SysCall.getPaymentPurse => (some (SysValue.urefV testPaymentPurse), noExecResult, tc)
      | SysCall.transferCall =>
        match phase with
        | Phase.payment =>
          (some (SysValue.mintResult MintRet.okU), ExecutionResult.success testPayEffect [] 0,
            ⟨tc.base, unionEff tc.log testPayEffect⟩)
        | _ =>
          (some (SysValue.mintResult MintRet.okU), ExecutionResult.success testSessEffect [] 0,
            ⟨tc.base, unionEff tc.log testSessEffect⟩)
      | SysCall.finalizePaymentCall =>
        (some SysValue.unitRet, ExecutionResult.success testFinEffect [] 0,
          ⟨tc.base, unionEff tc.log testFinEffect⟩)
      | _ => (some SysValue.unitRet, noExecResult, tc) }

/-- Test fixture: a native transfer from account 1, authorized by key 1,
deploy hash 56. -/
def testTransferDeploy : DeployItem :=
  ⟨1, ExecutableDeployItem.transferItem [], ExecutableDeployItem.moduleBytes [] [], 1,
    [1], 56⟩

/-- Test fixture: the effect the slash call records. -/
def testStepEffect : Effect :=
  [(Key.bid 9, Transform.writeT (StoredValue.clValue (CLVal.u512 500)))]

/-- Test oracles for `commit_step`: slash zeroes a bid, distribute and
`run_auction` succeed with no effect, and `get_era_validators` reports era
42 with validator 9 at weight 1000. -/
def oracleStep : Oracles :=
  { oracleOk with
    execSystemContract := fun call _ _ _ _ _ _ _ _ tc =>
      match call with
      | SysCall.slash =>
        (some SysValue.unitRet, ExecutionResult.success testStepEffect [] 0,
          ⟨tc.base, unionEff tc.log testStepEffect⟩)
      | SysCall.getEraValidators =>
        (some (SysValue.eraValidatorsV [(42, [(9, 1000)])]), noExecResult, tc)
      | _ => (some SysValue.unitRet, noExecResult, tc) }

/-- Test fixture: a step request rotating into era 42 with `run_auction`. -/
def testStepRequest : StepRequest := ⟨0, pv100, Except.ok [], Except.ok [(9, 100)], true, 42⟩

/-- Test fixture: the provider state after committing the step effect. -/
def testStepGS : GlobalState :=
  ⟨[testStore maxPaymentAmount,
    storeSet (testStore maxPaymentAmount) (Key.bid 9) (StoredValue.clValue (CLVal.u512 500))],
   [(pv100, testProtocolData)]⟩

/-- Test fixture: an upgrade 1.0.0 → 1.1.0 supplying all five config
values (validator slots 7, auction delay 3, locked funds period 4,
unbonding delay 5, seigniorage rate 1/200). -/
def testUpgradeConfig : UpgradeConfig :=
  ⟨0, pv100, pv110, none, none, some 7, some 3, some 4, some 5, some (1, 200)⟩

/-- The effect `commit_upgrade` accumulates for `testUpgradeConfig`. -/
def testUpgradeEffect : Effect :=
  [(Key.uref ⟨40, AccessRights.readAddWrite⟩,
    Transform.writeT (StoredValue.clValue (CLVal.u32 7))),
   (Key.uref ⟨41, AccessRights.readAddWrite⟩,
    Transform.writeT (StoredValue.clValue (CLVal.u64 3))),
   (Key.uref ⟨42, AccessRights.readAddWrite⟩,
    Transform.writeT (StoredValue.clValue (CLVal.u64 4))),
   (Key.uref ⟨43, AccessRights.readAddWrite⟩,
    Transform.writeT (StoredValue.clValue (CLVal.u64 5))),
   (Key.uref ⟨44, AccessRights.readAddWrite⟩,
    Transform.writeT (StoredValue.clValue (CLVal.rateV 1 200)))]

/-- The store at the committed post-state of `testUpgradeConfig`. -/
def testUpgradedStore : StoreMap :=
  match applyEff (testStore maxPaymentAmount) testUpgradeEffect with
  | Except.ok m => m
  | Except.error _ => []

/-- The provider state after `commit_upgrade` on `testUpgradeConfig`. -/
def testUpgradedGS : GlobalState :=
  ⟨[testStore maxPaymentAmount, testUpgradedStore],
   [(pv110, testProtocolData), (pv100, testProtocolData)]⟩

/-- Test fixture: the step request of `testStepRequest` with
`run_auction = false`. -/
def testStepRequestNoAuction : StepRequest :=
  ⟨0, pv100, Except.ok [], Except.ok [(9, 100)], false, 42⟩

/-- Whether the named key a `commit_upgrade` config step would overwrite
differs from a given key; vacuously true when the step's contract lookup
fails or the name is absent (the step then writes nothing under any key).
On a real chain the five config named keys are distinct URefs. -/
def stepKeyAvoids (tc : TrackingCopy) (contractHash : Nat) (keyName : String)
    (k : Key) : Bool :=
  match getContractTC tc contractHash with
  | Except.error _ => true
  | Except.ok contract =>
    match alookup contract.namedKeys keyName with
    | none => true
    | some namedKey => decide (¬ namedKey = k)

/-- Test fixture: an upgrade 1.0.0 → 1.1.0 supplying only the validator
slots (7); the other four optional config values are absent. -/
def testUpgradeSlotsOnly : UpgradeConfig :=
  ⟨0, pv100, pv110, none, none, some 7, none, none, none, none⟩

/-- The store at the committed post-state of `testUpgradeSlotsOnly`. -/
def testSlotsOnlyStore : StoreMap :=
  storeSet (testStore maxPaymentAmount) (Key.uref ⟨40, AccessRights.readAddWrite⟩)
    (StoredValue.clValue (CLVal.u32 7))

/-- The provider state after `commit_upgrade` on `testUpgradeSlotsOnly`. -/
def testSlotsOnlyGS : GlobalState :=
  ⟨[testStore maxPaymentAmount, testSlotsOnlyStore],
   [(pv110, testProtocolData), (pv100, testProtocolData)]⟩

theorem compose_writeT (t : Transform) (v : StoredValue) :
    t.compose (Transform.writeT v) = Transform.writeT v := by
  cases t <;> rfl

theorem lookupT_insertT_writeT (e : Effect) (k : Key) (v : StoredValue) :
    lookupT (insertT e k (Transform.writeT v)) k = some (Transform.writeT v) := by
  induction e with
  | nil => simp [insertT, lookupT]
  | cons kt rest ih =>
    obtain ⟨k', t'⟩ := kt
    by_cases h : k' = k
    · subst h
      simp [insertT, lookupT, compose_writeT]
    · simp [insertT, lookupT, h, ih]

/-- C1: `run_execute` is deterministic: the embedding is a pure function of
the provider state, the (fixed) executor behaviour and the request, because
the source consults no clock, randomness or other ambient input — so two
runs on the same state and request produce equal (hence byte-equal)
execution results. -/
theorem run_execute_deterministic (gs : GlobalState) (o : Oracles) (req : ExecuteRequest) :
    runExecuteE gs o req = runExecuteE gs o req := rfl

/-- C4: a standard deploy from an account whose main-purse balance is
strictly below `MAX_PAYMENT` fails the minimum-balance precondition:
`deploy` returns `Failure(InsufficientPayment)` with empty effect and zero
cost, before any phase executes — nothing is committed, so the account's
balance is unchanged. -/
theorem deploy_insufficient_balance (gs : GlobalState) (o : Oracles)
    (pv : ProtocolVersion) (root bt proposer : Nat) (d : DeployItem) (pd : ProtocolData)
    (m : StoreMap) (sm : SystemModule) (account : Account) (smeta : DeployMetadata)
    (bkey : Key) (bal : Nat)
    (hPd : getProtocolDataGS gs pv = some pd)
    (hRoot : checkoutGS gs root = some m)
    (hMod : o.getSystemModule (TrackingCopy.new m) = Except.ok sm)
    (hAuth : getAuthorizedAccount (TrackingCopy.new m) d.address d.authorizationKeys =
      Except.ok account)
    (hMeta : o.getDeployMetadata d.session Phase.session (TrackingCopy.new m) =
      Except.ok smeta)
    (hBKey : getPurseBalanceKeyTC (TrackingCopy.new m) (Key.uref account.mainPurse) =
      Except.ok bkey)
    (hBal : getPurseBalanceTC (TrackingCopy.new m) bkey = Except.ok bal)
    (hLt : bal < maxPaymentAmount) :
    deployF gs o pv root bt d proposer =
      some (Except.ok (ExecutionResult.preconditionFailure EngineError.insufficientPayment)) := by
  simp only [deployF, hPd, hRoot, hMod, Key.intoAccount, hAuth, hMeta, hBKey, hBal, hLt,
    if_true]

/-- C4 witness: account 1 with exactly `MAX_PAYMENT − 1` motes. -/
theorem deploy_insufficient_balance_witness :
    getPurseBalanceTC (TrackingCopy.new (testStore (maxPaymentAmount - 1))) (Key.balance 10) =
      Except.ok (maxPaymentAmount - 1) ∧
    maxPaymentAmount - 1 < maxPaymentAmount ∧
    deployF (testGS (maxPaymentAmount - 1)) oracleOk pv100 0 0 testDeployStd 2 =
      some (Except.ok (ExecutionResult.preconditionFailure EngineError.insufficientPayment)) :=
  ⟨by decide, by decide,
    deploy_insufficient_balance (testGS (maxPaymentAmount - 1)) oracleOk pv100 0 0 2
      testDeployStd testProtocolData (testStore (maxPaymentAmount - 1)) ⟨0⟩ testAccountA
      (DeployMetadata.sessionMeta ⟨1⟩ "call") (Key.balance 10) (maxPaymentAmount - 1)
      (by decide) (by decide) rfl (by decide) rfl (by decide) (by decide) (by decide)⟩

/-- C5: a deploy (standard or native transfer) whose authorization keys have
total weight below the account's deployment threshold is rejected by
`get_authorized_account` before any phase runs: both paths return a
precondition `Failure` whose error is `Authorization` (when some key is not
even associated) or `Exec(DeploymentAuthorizationFailure)` (associated but
under-weight), with empty effect and zero cost — no state change. -/
theorem engine_authorization_failure (gs : GlobalState) (o : Oracles)
    (pv : ProtocolVersion) (root bt proposer : Nat) (d : DeployItem) (pd : ProtocolData)
    (m : StoreMap) (sm : SystemModule) (account : Account)
    (hPd : getProtocolDataGS gs pv = some pd)
    (hRoot : checkoutGS gs root = some m)
    (hMod : o.getSystemModule (TrackingCopy.new m) = Except.ok sm)
    (hAcc : getAccountTC (TrackingCopy.new m) d.address = Except.ok account)
    (hW : account.totalWeight d.authorizationKeys < account.actionThresholds.deployment) :
    authFailure? (deployF gs o pv root bt d proposer) = true ∧
    authFailure? (transferF gs o pv root bt d proposer) = true := by
  have hcdw : account.canDeployWith d.authorizationKeys = false := by
    simp only [Account.canDeployWith, decide_eq_false_iff_not, Nat.not_le]
    exact hW
  cases hca : account.canAuthorize d.authorizationKeys with
  | false =>
    have hGAA : getAuthorizedAccount (TrackingCopy.new m) d.address d.authorizationKeys =
        Except.error EngineError.authorization := by
      simp [getAuthorizedAccount, hAcc, hca]
    constructor
    · simp only [deployF, hPd, hRoot, hMod, Key.intoAccount, hGAA,
        ExecutionResult.preconditionFailure, authFailure?]
    · simp only [transferF, hPd, hRoot, hMod, Key.intoAccount, hGAA,
        ExecutionResult.preconditionFailure, authFailure?]
  | true =>
    have hGAA : getAuthorizedAccount (TrackingCopy.new m) d.address d.authorizationKeys =
        Except.error (EngineError.exec ExecErr.deploymentAuthorizationFailure) := by
      simp [getAuthorizedAccount, hAcc, hca, hcdw]
    constructor
    · simp only [deployF, hPd, hRoot, hMod, Key.intoAccount, hGAA,
        ExecutionResult.preconditionFailure, authFailure?]
    · simp only [transferF, hPd, hRoot, hMod, Key.intoAccount, hGAA,
        ExecutionResult.preconditionFailure, authFailure?]

/-- C5 witness: key 3 (total weight 0, threshold 1) on account 1, for both
the standard-deploy and native-transfer paths. -/
theorem engine_authorization_failure_witness :
    testAccountA.totalWeight testDeployWeakAuth.authorizationKeys <
      testAccountA.actionThresholds.deployment ∧
    authFailure? (deployF (testGS maxPaymentAmount) oracleOk pv100 0 0 testDeployWeakAuth 2) =
      true ∧
    authFailure? (transferF (testGS maxPaymentAmount) oracleOk pv100 0 0 testDeployWeakAuth 2) =
      true :=
  ⟨by decide,
    (engine_authorization_failure (testGS maxPaymentAmount) oracleOk pv100 0 0 2
      testDeployWeakAuth testProtocolData (testStore maxPaymentAmount) ⟨0⟩ testAccountA
      (by decide) (by decide) rfl (by decide) (by decide)).1,
    (engine_authorization_failure (testGS maxPaymentAmount) oracleOk pv100 0 0 2
      testDeployWeakAuth testProtocolData (testStore maxPaymentAmount) ⟨0⟩ testAccountA
      (by decide) (by decide) rfl (by decide) (by decide)).2⟩

/-- C2: when the payment-purse balance after the payment phase is below the
payment cost, or the payment code failed, `deploy` performs the forced
transfer: the returned result is a `Failure` whose effect consists solely of
writing the account main-purse balance reduced by `MAX_PAYMENT` and adding
`MAX_PAYMENT` to the proposer's purse balance (so it contains no session
effects — the session phase never runs), with cost `MAX_PAYMENT`; the error
is `InsufficientPayment` or the payment phase's own error. -/
theorem deploy_forced_transfer (gs : GlobalState) (o : Oracles)
    (pv : ProtocolVersion) (root bt proposer : Nat) (d : DeployItem) (pd : ProtocolData)
    (m : StoreMap) (sm : SystemModule) (account : Account) (smeta pmeta : DeployMetadata)
    (abk : Key) (bal : Nat) (pr : ExecutionResult) (tcP : TrackingCopy) (posC : Contract)
    (ppk pbk : Key) (ppb : Nat) (propAcc : Account) (propBalKey : Key)
    (hPd : getProtocolDataGS gs pv = some pd)
    (hRoot : checkoutGS gs root = some m)
    (hMod : o.getSystemModule (TrackingCopy.new m) = Except.ok sm)
    (hAuth : getAuthorizedAccount (TrackingCopy.new m) d.address d.authorizationKeys =
      Except.ok account)
    (hMeta : o.getDeployMetadata d.session Phase.session (TrackingCopy.new m) =
      Except.ok smeta)
    (hBKey : getPurseBalanceKeyTC (TrackingCopy.new m) (Key.uref account.mainPurse) =
      Except.ok abk)
    (hBal : getPurseBalanceTC (TrackingCopy.new m) abk = Except.ok bal)
    (hGe : ¬ bal < maxPaymentAmount)
    (hPMeta : o.getDeployMetadata d.payment Phase.payment (TrackingCopy.new m) =
      Except.ok pmeta)
    (hPay : runPayment o pmeta d.payment.intoRuntimeArgs (Key.account d.address) account
      d.authorizationKeys maxPaymentAmount (TrackingCopy.new m) = (pr, tcP))
    (hPos : getContractTC tcP pd.proofOfStake = Except.ok posC)
    (hPPK : alookup posC.namedKeys posPaymentPurseName = some ppk)
    (hPBK : getPurseBalanceKeyTC tcP ppk = Except.ok pbk)
    (hPPB : getPurseBalanceTC tcP pbk = Except.ok ppb)
    (hProp : getAccountTC tcP proposer = Except.ok propAcc)
    (hPropKey : getPurseBalanceKeyTC tcP (Key.uref propAcc.mainPurse) = Except.ok propBalKey)
    (hCond : ppb < pr.cost ∨ pr.isFailure = true) :
    deployF gs o pv root bt d proposer =
      some (Except.ok (ExecutionResult.failure
        (if ppb < pr.cost then EngineError.insufficientPayment
         else pr.takeError.getD EngineError.insufficientPayment)
        (insertT
          (insertT [] abk
            (Transform.writeT (StoredValue.clValue (CLVal.u512 (bal - maxPaymentAmount)))))
          propBalKey (Transform.addU512 maxPaymentAmount))
        [] maxPaymentAmount)) := by
  by_cases hlt : ppb < pr.cost
  · have hFT : pr.checkForcedTransfer ppb = some ForcedTransferResult.insufficientPayment := by
      simp [ExecutionResult.checkForcedTransfer, hlt]
    simp only [deployF, hPd, hRoot, hMod, Key.intoAccount, hAuth, hMeta, hBKey, hBal, hGe,
      if_false, hPMeta, hPay, hPos, hPPK, hPBK, hPPB, hProp, hFT, hPropKey, hlt, if_true,
      ExecutionResult.newPaymentCodeError]
  · have hFail : pr.isFailure = true := hCond.resolve_left hlt
    have hFT : pr.checkForcedTransfer ppb = some ForcedTransferResult.paymentFailure := by
      simp [ExecutionResult.checkForcedTransfer, hlt, hFail]
    simp only [deployF, hPd, hRoot, hMod, Key.intoAccount, hAuth, hMeta, hBKey, hBal, hGe,
      if_false, hPMeta, hPay, hPos, hPPK, hPBK, hPPB, hProp, hFT, hPropKey, hlt, if_true,
      ExecutionResult.newPaymentCodeError]

/-- C2 witness: under `oraclePayFail` the payment code fails, so the deploy
from account 1 (balance exactly `MAX_PAYMENT`) is settled by a forced
transfer of `MAX_PAYMENT` to proposer 2. -/
theorem deploy_forced_transfer_witness :
    (ExecutionResult.failure EngineError.deployErr [] [] 0).isFailure = true ∧
    deployF (testGS maxPaymentAmount) oraclePayFail pv100 0 0 testDeployStd 2 =
      some (Except.ok (ExecutionResult.failure
        (if (0 : Nat) < (ExecutionResult.failure EngineError.deployErr [] [] 0).cost then
          EngineError.insufficientPayment
         else (ExecutionResult.failure EngineError.deployErr [] [] 0).takeError.getD
           EngineError.insufficientPayment)
        (insertT
          (insertT [] (Key.balance 10)
            (Transform.writeT (StoredValue.clValue
              (CLVal.u512 (maxPaymentAmount - maxPaymentAmount)))))
          (Key.balance 20) (Transform.addU512 maxPaymentAmount))
        [] maxPaymentAmount)) :=
  ⟨rfl,
    deploy_forced_transfer (testGS maxPaymentAmount) oraclePayFail pv100 0 0 2 testDeployStd
      testProtocolData (testStore maxPaymentAmount) ⟨0⟩ testAccountA
      (DeployMetadata.sessionMeta ⟨1⟩ "call") (DeployMetadata.system (Key.hashK 102) [] "pay")
      (Key.balance 10) maxPaymentAmount
      (ExecutionResult.failure EngineError.deployErr [] [] 0)
      (TrackingCopy.new (testStore maxPaymentAmount))
      testPosContract (Key.uref testPaymentPurse) (Key.balance 30) 0
      testProposerAccount (Key.balance 20)
      (by decide) (by decide) rfl (by decide) (by decide) (by decide) (by decide) (by decide)
      (by decide) (by decide) (by decide) (by decide) (by decide) (by decide) (by decide)
      (by decide) (Or.inr rfl)⟩

theorem isFailure_false_of_isSuccess (r : ExecutionResult) (h : r.isSuccess = true) :
    r.isFailure = false := by
  cases r with
  | failure e eff t c => simp [ExecutionResult.isSuccess] at h
  | success eff t c => rfl

/-- C3: when the payment phase succeeds (no forced transfer) but the session
phase fails, `deploy` returns a `Failure` carrying the session's error whose
effect is exactly the union of the payment effect and the finalize effect
(every session-phase transform is discarded) and whose cost is the payment
cost only. -/
theorem deploy_session_failure_discards_effects (gs : GlobalState) (o : Oracles)
    (pv : ProtocolVersion) (root bt proposer : Nat) (d : DeployItem) (pd : ProtocolData)
    (m : StoreMap) (sm : SystemModule) (account : Account) (smeta pmeta : DeployMetadata)
    (abk : Key) (bal : Nat) (pr : ExecutionResult) (tcP : TrackingCopy) (posC : Contract)
    (ppk pbk : Key) (ppb : Nat) (propAcc : Account) (sres : ExecutionResult)
    (stc : TrackingCopy) (fv : Option SysValue) (fr : ExecutionResult) (ftc : TrackingCopy)
    (hPd : getProtocolDataGS gs pv = some pd)
    (hRoot : checkoutGS gs root = some m)
    (hMod : o.getSystemModule (TrackingCopy.new m) = Except.ok sm)
    (hAuth : getAuthorizedAccount (TrackingCopy.new m) d.address d.authorizationKeys =
      Except.ok account)
    (hMeta : o.getDeployMetadata d.session Phase.session (TrackingCopy.new m) =
      Except.ok smeta)
    (hBKey : getPurseBalanceKeyTC (TrackingCopy.new m) (Key.uref account.mainPurse) =
      Except.ok abk)
    (hBal : getPurseBalanceTC (TrackingCopy.new m) abk = Except.ok bal)
    (hGe : ¬ bal < maxPaymentAmount)
    (hPMeta : o.getDeployMetadata d.payment Phase.payment (TrackingCopy.new m) =
      Except.ok pmeta)
    (hPay : runPayment o pmeta d.payment.intoRuntimeArgs (Key.account d.address) account
      d.authorizationKeys maxPaymentAmount (TrackingCopy.new m) = (pr, tcP))
    (hPos : getContractTC tcP pd.proofOfStake = Except.ok posC)
    (hPPK : alookup posC.namedKeys posPaymentPurseName = some ppk)
    (hPBK : getPurseBalanceKeyTC tcP ppk = Except.ok pbk)
    (hPPB : getPurseBalanceTC tcP pbk = Except.ok ppb)
    (hProp : getAccountTC tcP proposer = Except.ok propAcc)
    (hPOk : pr.isSuccess = true)
    (hCost : ¬ ppb < pr.cost)
    (hSess : runSession o sm smeta d.session.intoRuntimeArgs (Key.account d.address) account
      d.authorizationKeys (ppb - pr.cost) tcP = (sres, stc))
    (hSFail : sres.isFailure = true)
    (hFin : o.execSystemContract SysCall.finalizePaymentCall
      (finalizeArgs (pr.cost + sres.cost) d.address propAcc.mainPurse) posC.namedKeys []
      (Key.hashK pd.proofOfStake) systemAccount d.authorizationKeys u64Max
      Phase.finalizePayment tcP = (fv, fr, ftc)) :
    deployF gs o pv root bt d proposer =
      some (Except.ok (ExecutionResult.failure (sres.takeError.getD EngineError.deployErr)
        (unionEff pr.effect fr.effect) sres.transfers pr.cost)) := by
  have hNoFT : pr.checkForcedTransfer ppb = none := by
    simp [ExecutionResult.checkForcedTransfer, hCost, isFailure_false_of_isSuccess pr hPOk]
  simp only [deployF, hPd, hRoot, hMod, Key.intoAccount, hAuth, hMeta, hBKey, hBal, hGe,
    if_false, hPMeta, hPay, hPos, hPPK, hPBK, hPPB, hProp, hNoFT, TrackingCopy.fork,
    hSess, hSFail, if_true, ExecutionResultBuilder.empty, ExecutionResultBuilder.setPayment,
    ExecutionResultBuilder.setSession, ExecutionResultBuilder.setFinalize,
    ExecutionResultBuilder.totalCost, ExecutionResultBuilder.build, Option.map_some',
    Option.getD_some, hFin, hPOk, Bool.and_self, ite_true]

/-- C3 witness: under `oracleSessFail` the payment pays 1000000 motes and
the session reverts; the result keeps only payment ∪ finalize effects and
the payment cost. -/
theorem deploy_session_failure_discards_effects_witness :
    (ExecutionResult.failure (EngineError.exec (ExecErr.revertErr (ApiErr.mintError 1)))
      [] [] 50).isFailure = true ∧
    deployF (testGS maxPaymentAmount) oracleSessFail pv100 0 0 testDeployStd 2 =
      some (Except.ok (ExecutionResult.failure
        (EngineError.exec (ExecErr.revertErr (ApiErr.mintError 1)))
        (unionEff testPayEffect testFinEffect) [] 1000000)) :=
  ⟨rfl,
    deploy_session_failure_discards_effects (testGS maxPaymentAmount) oracleSessFail pv100
      0 0 2 testDeployStd testProtocolData (testStore maxPaymentAmount) ⟨0⟩ testAccountA
      (DeployMetadata.sessionMeta ⟨1⟩ "call") (DeployMetadata.system (Key.hashK 102) [] "pay")
      (Key.balance 10) maxPaymentAmount
      (ExecutionResult.success testPayEffect [] 1000000)
      ⟨testStore maxPaymentAmount, testPayEffect⟩
      testPosContract (Key.uref testPaymentPurse) (Key.balance 30) 1000000
      testProposerAccount
      (ExecutionResult.failure (EngineError.exec (ExecErr.revertErr (ApiErr.mintError 1)))
        [] [] 50)
      ⟨testStore maxPaymentAmount, testPayEffect⟩
      (some SysValue.unitRet) (ExecutionResult.success testFinEffect [] 0)
      ⟨testStore maxPaymentAmount, unionEff testPayEffect testFinEffect⟩
      (by decide) (by decide) rfl (by decide) (by decide) (by decide) (by decide) (by decide)
      (by decide) (by decide) (by decide) (by decide) (by decide) (by decide) (by decide)
      (by decide) (by decide) (by decide) (by decide) (by decide)⟩

/-- C6 counterexample: `run_execute` does NOT hand each deploy the committed
post-state of the previous deploy.  With two identical deploys from an
account holding exactly `MAX_PAYMENT`, the first deploy's payment spends
1000000 motes; under the spec's sequential-commit reading the second deploy
would fail the `MAX_PAYMENT` minimum-balance precondition, but the code runs
both deploys against `parent_state_hash`, so both succeed. -/
theorem run_execute_not_sequential_cex :
    runExecuteE (testGS maxPaymentAmount) oracleOk testRequest2 ≠
      runExecuteSeqSpec (testGS maxPaymentAmount) oracleOk testRequest2 := by
  intro h
  exact absurd (congrArg resultsOutcome h) (by decide)

/-- C6 amended: within one `run_execute` call the deploys are executed
strictly sequentially in input order and the results preserve that order,
but every deploy is executed against the request's `parent_state_hash`
(effects are not committed between deploys inside `run_execute`). -/
theorem run_execute_parent_state_order (gs : GlobalState) (o : Oracles)
    (pv : ProtocolVersion) (root bt proposer : Nat)
    (items : List (Except ExecutionResult DeployItem)) (results : List ExecutionResult)
    (h : runExecuteGo gs o pv root bt proposer items = some (Except.ok results)) :
    results.length = items.length ∧
    ∀ i item, items.get? i = some item →
      ∃ r, results.get? i = some r ∧
        execDeployItem gs o pv root bt proposer item = some (Except.ok r) := by
  induction items generalizing results with
  | nil =>
    simp only [runExecuteGo, Option.some.injEq, Except.ok.injEq] at h
    subst h
    refine ⟨rfl, ?_⟩
    intro i item hi
    simp at hi
  | cons it rest ih =>
    simp only [runExecuteGo] at h
    cases hx : execDeployItem gs o pv root bt proposer it with
    | none => rw [hx] at h; exact absurd h (by simp)
    | some ex =>
      cases ex with
      | error e => rw [hx] at h; simp at h
      | ok r =>
        rw [hx] at h
        cases hrest : runExecuteGo gs o pv root bt proposer rest with
        | none => rw [hrest] at h; simp at h
        | some ex2 =>
          cases ex2 with
          | error e => rw [hrest] at h; simp at h
          | ok rs =>
            rw [hrest] at h
            simp only [Option.some.injEq, Except.ok.injEq] at h
            subst h
            obtain ⟨hlen, hall⟩ := ih rs hrest
            refine ⟨by simp [hlen], ?_⟩
            intro i itm hi
            cases i with
            | zero =>
              simp only [List.get?_cons_zero, Option.some.injEq] at hi
              subst hi
              exact ⟨r, by simp, hx⟩
            | succ n =>
              simp only [List.get?_cons_succ] at hi
              obtain ⟨r', hr', hx'⟩ := hall n itm hi
              exact ⟨r', by simpa using hr', hx'⟩

/-- C6 amended witness: the two-deploy fixture request: two results, in
order, both produced against the parent state root 0. -/
theorem run_execute_parent_state_order_witness :
    runExecuteGo (testGS maxPaymentAmount) oracleOk pv100 0 0 2 testRequest2.deploys =
      some (Except.ok [testDeployResult, testDeployResult]) ∧
    ([testDeployResult, testDeployResult] : List ExecutionResult).length =
      testRequest2.deploys.length :=
  ⟨by decide,
    (run_execute_parent_state_order (testGS maxPaymentAmount) oracleOk pv100 0 0 2
      testRequest2.deploys [testDeployResult, testDeployResult] (by decide)).1⟩

theorem lookupT_insertT_other (x : Effect) (k' k : Key) (t : Transform) (h : ¬ k' = k) :
    lookupT (insertT x k' t) k = lookupT x k := by
  induction x with
  | nil => simp [insertT, lookupT, h]
  | cons kt rest ih =>
    obtain ⟨k0, t0⟩ := kt
    by_cases h0 : k0 = k'
    · subst h0
      simp [insertT, lookupT, h]
    · by_cases h1 : k0 = k
      · subst h1
        simp [insertT, lookupT, h0]
      · simp [insertT, lookupT, h0, h1, ih]

theorem lookupT_none_of_not_contains (e : Effect) (k : Key)
    (h : containsKeyB e k = false) : lookupT e k = none := by
  induction e with
  | nil => rfl
  | cons kt rest ih =>
    obtain ⟨k0, t0⟩ := kt
    simp only [containsKeyB, Bool.or_eq_false_iff, decide_eq_false_iff_not] at h
    simp [lookupT, h.1, ih h.2]

theorem contains_false_of_lookupT_none (e : Effect) (k : Key)
    (h : lookupT e k = none) : containsKeyB e k = false := by
  induction e with
  | nil => rfl
  | cons kt rest ih =>
    obtain ⟨k0, t0⟩ := kt
    by_cases h0 : k0 = k
    · subst h0
      simp [lookupT] at h
    · simp only [lookupT, h0, if_false] at h
      simp [containsKeyB, h0, ih h]

theorem unionEff_lookup_of_absent (e : Effect) (k : Key) (h : lookupT e k = none) :
    ∀ x : Effect, lookupT (unionEff x e) k = lookupT x k := by
  induction e with
  | nil => intro x; rfl
  | cons kt rest ih =>
    obtain ⟨k0, t0⟩ := kt
    intro x
    by_cases h0 : k0 = k
    · subst h0
      simp [lookupT] at h
    · simp only [lookupT, h0, if_false] at h
      have step : unionEff x ((k0, t0) :: rest) = unionEff (insertT x k0 t0) rest := rfl
      rw [step, ih h, lookupT_insertT_other x k0 k t0 h0]

theorem containsKeyB_insertT (e : Effect) (k x : Key) (t : Transform) :
    containsKeyB (insertT e k t) x = (containsKeyB e x || decide (k = x)) := by
  induction e with
  | nil => simp [insertT, containsKeyB]
  | cons kt rest ih =>
    obtain ⟨k0, t0⟩ := kt
    by_cases h0 : k0 = k
    · subst h0
      by_cases hx : k0 = x <;> simp [insertT, containsKeyB, hx]
    · by_cases hx : k0 = x
      · subst hx
        simp [insertT, containsKeyB, h0, ih]
      · simp [insertT, containsKeyB, h0, hx, ih]

theorem keysNodupB_insertT (e : Effect) (k : Key) (t : Transform)
    (h : keysNodupB e = true) : keysNodupB (insertT e k t) = true := by
  induction e with
  | nil => simp [insertT, keysNodupB, containsKeyB]
  | cons kt rest ih =>
    obtain ⟨k0, t0⟩ := kt
    simp only [keysNodupB, Bool.and_eq_true, Bool.not_eq_true', Bool.not_eq_false'] at h
    by_cases h0 : k0 = k
    · subst h0
      simp [insertT, keysNodupB, h.1, h.2]
    · simp only [insertT, h0, if_false, keysNodupB, containsKeyB_insertT, h.1,
        Bool.or_eq_true, Bool.and_eq_true, Bool.not_eq_true']
      refine ⟨?_, ih h.2⟩
      simp [decide_eq_false_iff_not]
      intro hk
      exact h0 hk.symm

theorem unionEff_lookup_write (s : Effect) (k : Key) (v : StoredValue)
    (hnd : keysNodupB s = true) (h : lookupT s k = some (Transform.writeT v)) :
    ∀ x : Effect, lookupT (unionEff x s) k = some (Transform.writeT v) := by
  induction s with
  | nil => intro x; simp [lookupT] at h
  | cons kt rest ih =>
    obtain ⟨k0, t0⟩ := kt
    intro x
    simp only [keysNodupB, Bool.and_eq_true, Bool.not_eq_true'] at hnd
    have step : unionEff x ((k0, t0) :: rest) = unionEff (insertT x k0 t0) rest := rfl
    by_cases h0 : k0 = k
    · subst h0
      simp only [lookupT] at h
      simp only [if_true, Option.some.injEq] at h
      subst h
      rw [step, unionEff_lookup_of_absent rest k0 (lookupT_none_of_not_contains rest k0 hnd.1),
        lookupT_insertT_writeT]
    · simp only [lookupT, h0, if_false] at h
      rw [step]
      exact ih hnd.2 h (insertT x k0 t0)

theorem withEffect_effect (r : ExecutionResult) (e : Effect) : (r.withEffect e).effect = e := by
  cases r <;> rfl

theorem withEffect_isFailure (r : ExecutionResult) (e : Effect) :
    (r.withEffect e).isFailure = r.isFailure := by
  cases r <;> rfl

theorem withEffect_transfers (r : ExecutionResult) (e : Effect) :
    (r.withEffect e).transfers = r.transfers := by
  cases r <;> rfl

theorem withEffect_cost (r : ExecutionResult) (e : Effect) :
    (r.withEffect e).cost = r.cost := by
  cases r <;> rfl

theorem withCost_cost (r : ExecutionResult) (c : Nat) : (r.withCost c).cost = c := by
  cases r <;> rfl

theorem withCost_effect (r : ExecutionResult) (c : Nat) : (r.withCost c).effect = r.effect := by
  cases r <;> rfl

theorem withCost_transfers (r : ExecutionResult) (c : Nat) :
    (r.withCost c).transfers = r.transfers := by
  cases r <;> rfl

theorem withCost_isSuccess (r : ExecutionResult) (c : Nat) :
    (r.withCost c).isSuccess = r.isSuccess := by
  cases r <;> rfl

theorem withCost_isFailure (r : ExecutionResult) (c : Nat) :
    (r.withCost c).isFailure = r.isFailure := by
  cases r <;> rfl

/-- C8 counterexample: a deploy whose session phase fails is executed by the
deploy path and returns a result, but its final effect contains NO `Write`
under `Key::DeployInfo(deploy_hash)`: the `DeployInfo` record is written to
the session fork, which is discarded on session failure. -/
theorem deploy_info_not_persisted_cex :
    (match deployF (testGS maxPaymentAmount) oracleSessFail pv100 0 0 testDeployStd 2 with
     | some (Except.ok _) => true
     | _ => false) = true ∧
    effHasWrite
      (resultEffectOf (deployF (testGS maxPaymentAmount) oracleSessFail pv100 0 0
        testDeployStd 2))
      (Key.deployInfo 55) = false := by
  constructor
  · decide
  · decide

theorem writeKV_effect (tc : TrackingCopy) (k : Key) (v : StoredValue) :
    (tc.writeKV k v).effect = insertT tc.log k (Transform.writeT v) := rfl

theorem effect_success (e : Effect) (t : List Nat) (c : Nat) :
    (ExecutionResult.success e t c).effect = e := rfl

theorem effect_failure (er : EngineError) (e : Effect) (t : List Nat) (c : Nat) :
    (ExecutionResult.failure er e t c).effect = e := rfl

/-- C8 amended: for every deploy on the standard path and every wasmless
transfer whose session phase SUCCEEDS (and whose finalize effect does not
itself touch the key), the final returned effect contains a `Write` under
`Key::DeployInfo(deploy_hash)` holding the transfers, the total cost
(payment + session), the account hash and the main purse.  (On session
failure the record is discarded together with the session fork — see the
counterexample.) -/
theorem deploy_info_write_in_effect (gs : GlobalState) (o : Oracles) (pv : ProtocolVersion)
    (root bt proposer : Nat) (d : DeployItem) :
    (∀ (pd : ProtocolData) (m : StoreMap) (sm : SystemModule) (account : Account)
      (smeta pmeta : DeployMetadata) (abk : Key) (bal : Nat) (pr : ExecutionResult)
      (tcP : TrackingCopy) (posC posC2 : Contract) (ppk pbk : Key) (ppb : Nat)
      (propAcc : Account) (sres : ExecutionResult) (stc : TrackingCopy)
      (fv : Option SysValue) (fr : ExecutionResult) (ftc : TrackingCopy),
      getProtocolDataGS gs pv = some pd →
      checkoutGS gs root = some m →
      o.getSystemModule (TrackingCopy.new m) = Except.ok sm →
      getAuthorizedAccount (TrackingCopy.new m) d.address d.authorizationKeys =
        Except.ok account →
      o.getDeployMetadata d.session Phase.session (TrackingCopy.new m) = Except.ok smeta →
      getPurseBalanceKeyTC (TrackingCopy.new m) (Key.uref account.mainPurse) =
        Except.ok abk →
      getPurseBalanceTC (TrackingCopy.new m) abk = Except.ok bal →
      ¬ bal < maxPaymentAmount →
      o.getDeployMetadata d.payment Phase.payment (TrackingCopy.new m) = Except.ok pmeta →
      runPayment o pmeta d.payment.intoRuntimeArgs (Key.account d.address) account
        d.authorizationKeys maxPaymentAmount (TrackingCopy.new m) = (pr, tcP) →
      getContractTC tcP pd.proofOfStake = Except.ok posC →
      alookup posC.namedKeys posPaymentPurseName = some ppk →
      getPurseBalanceKeyTC tcP ppk = Except.ok pbk →
      getPurseBalanceTC tcP pbk = Except.ok ppb →
      getAccountTC tcP proposer = Except.ok propAcc →
      pr.isSuccess = true →
      ¬ ppb < pr.cost →
      runSession o sm smeta d.session.intoRuntimeArgs (Key.account d.address) account
        d.authorizationKeys (ppb - pr.cost) tcP = (sres, stc) →
      sres.isSuccess = true →
      keysNodupB stc.log = true →
      getContractTC (stc.writeKV (Key.deployInfo d.deployHash)
        (StoredValue.deployInfoV ⟨d.deployHash, sres.transfers, account.accountHash,
          account.mainPurse, pr.cost + sres.cost⟩)) pd.proofOfStake = Except.ok posC2 →
      o.execSystemContract SysCall.finalizePaymentCall
        (finalizeArgs (pr.cost + sres.cost) d.address propAcc.mainPurse) posC2.namedKeys []
        (Key.hashK pd.proofOfStake) systemAccount d.authorizationKeys u64Max
        Phase.finalizePayment
        (stc.writeKV (Key.deployInfo d.deployHash)
          (StoredValue.deployInfoV ⟨d.deployHash, sres.transfers, account.accountHash,
            account.mainPurse, pr.cost + sres.cost⟩)) = (fv, fr, ftc) →
      lookupT fr.effect (Key.deployInfo d.deployHash) = none →
      lookupT (resultEffectOf (deployF gs o pv root bt d proposer))
          (Key.deployInfo d.deployHash) =
        some (Transform.writeT (StoredValue.deployInfoV ⟨d.deployHash, sres.transfers,
          account.accountHash, account.mainPurse, pr.cost + sres.cost⟩))) ∧
    (∀ (pd : ProtocolData) (m : StoreMap) (sm : SystemModule) (account : Account)
      (mintC posC : Contract) (mode : TransferTargetMode) (mek : List Key)
      (tc1 : TrackingCopy) (ta : TransferArgs) (sbk : Key) (sb : Nat) (pu : URefT)
      (gres : ExecutionResult) (tc2 : TrackingCopy) (payr : ExecutionResult)
      (tc3 : TrackingCopy) (pbk2 : Key) (ppb2 : Nat) (ta2 : TransferArgs)
      (sv : Option SysValue) (sres : ExecutionResult) (tc4 : TrackingCopy)
      (propAcc : Account) (fv : Option SysValue) (fr : ExecutionResult)
      (ftc : TrackingCopy),
      getProtocolDataGS gs pv = some pd →
      checkoutGS gs root = some m →
      o.getSystemModule (TrackingCopy.new m) = Except.ok sm →
      getAuthorizedAccount (TrackingCopy.new m) d.address d.authorizationKeys =
        Except.ok account →
      getContractTC (TrackingCopy.new m) pd.mint = Except.ok mintC →
      getContractTC (TrackingCopy.new m) pd.proofOfStake = Except.ok posC →
      o.transferTargetMode d.session.intoRuntimeArgs (TrackingCopy.new m) =
        Except.ok mode →
      transferTargetStep o mode mintC.namedKeys (Key.hashK pd.mint) account
        d.authorizationKeys (TrackingCopy.new m) = Except.ok (mek, tc1) →
      o.buildTransferArgs d.session.intoRuntimeArgs account tc1 = Except.ok ta →
      getPurseBalanceKeyTC tc1 (Key.uref ta.source) = Except.ok sbk →
      getPurseBalanceTC tc1 sbk = Except.ok sb →
      ¬ sb < pd.systemConfig.wasmlessTransferCost →
      o.execSystemContract SysCall.getPaymentPurse [] posC.namedKeys []
        (Key.hashK pd.proofOfStake) account d.authorizationKeys u64Max Phase.payment tc1 =
        (some (SysValue.urefV pu), gres, tc2) →
      gres.takeError = none →
      o.execSystemContract SysCall.transferCall
        (TransferArgs.toRuntimeArgs
          ⟨ta.toAccount, ta.source, pu, pd.systemConfig.wasmlessTransferCost, ta.argId⟩)
        mintC.namedKeys mek (Key.hashK pd.mint) account d.authorizationKeys u64Max
        Phase.payment tc2 = (some (SysValue.mintResult MintRet.okU), payr, tc3) →
      payr.takeError = none →
      getPurseBalanceKeyTC tc3 (Key.uref pu) = Except.ok pbk2 →
      getPurseBalanceTC tc3 pbk2 = Except.ok ppb2 →
      o.buildTransferArgs d.session.intoRuntimeArgs account tc3 = Except.ok ta2 →
      o.execSystemContract SysCall.transferCall ta2.toRuntimeArgs mintC.namedKeys mek
        (Key.hashK pd.mint) account d.authorizationKeys u64Max Phase.session tc3 =
        (sv, sres, tc4) →
      getAccountTC tc4 proposer = Except.ok propAcc →
      o.execSystemContract SysCall.finalizePaymentCall
        (finalizeArgs ppb2 d.address propAcc.mainPurse) posC.namedKeys []
        (Key.hashK pd.proofOfStake) systemAccount d.authorizationKeys u64Max
        Phase.finalizePayment tc4 = (fv, fr, ftc) →
      sres.isSuccess = true →
      keysNodupB tc4.log = true →
      lookupT fr.effect (Key.deployInfo d.deployHash) = none →
      lookupT (resultEffectOf (transferF gs o pv root bt d proposer))
          (Key.deployInfo d.deployHash) =
        some (Transform.writeT (StoredValue.deployInfoV ⟨d.deployHash, sres.transfers,
          account.accountHash, account.mainPurse, ppb2 + 0⟩))) := by
  constructor
  · intro pd m sm account smeta pmeta abk bal pr tcP posC posC2 ppk pbk ppb propAcc sres
      stc fv fr ftc hPd hRoot hMod hAuth hMeta hBKey hBal hGe hPMeta hPay hPos hPPK hPBK
      hPPB hProp hPOk hCost hSess hSOk hNodup hPos2 hFin hFinNone
    have hNoFT : pr.checkForcedTransfer ppb = none := by
      simp [ExecutionResult.checkForcedTransfer, hCost, isFailure_false_of_isSuccess pr hPOk]
    have hSF : sres.isFailure = false := isFailure_false_of_isSuccess sres hSOk
    simp only [deployF, hPd, hRoot, hMod, Key.intoAccount, hAuth, hMeta, hBKey, hBal, hGe,
      if_false, hPMeta, hPay, hPos, hPPK, hPBK, hPPB, hProp, hNoFT, TrackingCopy.fork,
      hSess, hSF, Bool.false_eq_true, ExecutionResultBuilder.empty,
      ExecutionResultBuilder.setPayment, ExecutionResultBuilder.setSession,
      ExecutionResultBuilder.setFinalize, ExecutionResultBuilder.totalCost,
      ExecutionResultBuilder.build, Option.map_some', Option.getD_some, hPos2, hFin,
      withEffect_isFailure, withEffect_effect, withEffect_transfers, withEffect_cost,
      Bool.false_and, ite_false, resultEffectOf, effect_success, effect_failure,
      writeKV_effect]
    rw [unionEff_lookup_of_absent fr.effect (Key.deployInfo d.deployHash) hFinNone]
    exact unionEff_lookup_write _ (Key.deployInfo d.deployHash) _
      (keysNodupB_insertT stc.log (Key.deployInfo d.deployHash) _ hNodup)
      (lookupT_insertT_writeT stc.log (Key.deployInfo d.deployHash) _) pr.effect
  · intro pd m sm account mintC posC mode mek tc1 ta sbk sb pu gres tc2 payr tc3 pbk2 ppb2
      ta2 sv sres tc4 propAcc fv fr ftc hPd hRoot hMod hAuth hMint hPos hMode hStep hBuild1
      hSbk hSb hFee hGetPurse hGres hPayCall hPayr hPbk2 hPpb2 hBuild2 hSessCall hProp hFin
      hSOk hNodup hFinNone
    have hSF : sres.isFailure = false := isFailure_false_of_isSuccess sres hSOk
    simp only [transferF, hPd, hRoot, hMod, Key.intoAccount, hAuth, hMint, hPos, hMode,
      hStep, hBuild1, hSbk, hSb, hFee, if_false, hGetPurse, Option.bind,
      SysValue.asURef, hGres, hPayCall, SysValue.asMintResult, hPayr, hPbk2, hPpb2,
      hBuild2, hSessCall, hProp, TrackingCopy.fork, withCost_cost, hFin,
      withCost_isSuccess, hSOk, if_true, withCost_transfers, withCost_effect,
      withCost_isFailure, hSF, Bool.false_eq_true, ExecutionResultBuilder.empty,
      ExecutionResultBuilder.setPayment, ExecutionResultBuilder.setSession,
      ExecutionResultBuilder.setFinalize, ExecutionResultBuilder.build, Option.map_some',
      Option.getD_some, withEffect_isFailure, withEffect_effect, withEffect_transfers,
      withEffect_cost, Bool.false_and, ite_false, resultEffectOf, effect_success,
      effect_failure, writeKV_effect]
    rw [unionEff_lookup_of_absent fr.effect (Key.deployInfo d.deployHash) hFinNone]
    exact unionEff_lookup_write _ (Key.deployInfo d.deployHash) _
      (keysNodupB_insertT tc4.log (Key.deployInfo d.deployHash) _ hNodup)
      (lookupT_insertT_writeT tc4.log (Key.deployInfo d.deployHash) _) payr.effect

/-- C8 amended witness: a successful standard deploy (hash 55) and a
successful wasmless transfer (hash 56) both carry the `DeployInfo` write in
their final effect. -/
theorem deploy_info_write_in_effect_witness :
    (ExecutionResult.success testSessEffect [] 1000).isSuccess = true ∧
    lookupT
      (resultEffectOf (deployF (testGS maxPaymentAmount) oracleOk pv100 0 0 testDeployStd 2))
      (Key.deployInfo 55) =
      some (Transform.writeT (StoredValue.deployInfoV
        ⟨55, [], 1, ⟨10, AccessRights.readAddWrite⟩, 1000000 + 1000⟩)) ∧
    lookupT
      (resultEffectOf (transferF (testGS maxPaymentAmount) oracleTransferOk pv100 0 0
        testTransferDeploy 2))
      (Key.deployInfo 56) =
      some (Transform.writeT (StoredValue.deployInfoV
        ⟨56, [], 1, ⟨10, AccessRights.readAddWrite⟩, 1000000 + 0⟩)) :=
  ⟨rfl,
    (deploy_info_write_in_effect (testGS maxPaymentAmount) oracleOk pv100 0 0 2
        testDeployStd).1
      testProtocolData (testStore maxPaymentAmount) ⟨0⟩ testAccountA
      (DeployMetadata.sessionMeta ⟨1⟩ "call") (DeployMetadata.system (Key.hashK 102) [] "pay")
      (Key.balance 10) maxPaymentAmount
      (ExecutionResult.success testPayEffect [] 1000000)
      ⟨testStore maxPaymentAmount, testPayEffect⟩
      testPosContract testPosContract (Key.uref testPaymentPurse) (Key.balance 30) 1000000
      testProposerAccount
      (ExecutionResult.success testSessEffect [] 1000)
      ⟨testStore maxPaymentAmount, unionEff testPayEffect testSessEffect⟩
      (some SysValue.unitRet) (ExecutionResult.success testFinEffect [] 0)
      ⟨testStore maxPaymentAmount,
        unionEff
          (insertT (unionEff testPayEffect testSessEffect) (Key.deployInfo 55)
            (Transform.writeT (StoredValue.deployInfoV
              ⟨55, [], 1, ⟨10, AccessRights.readAddWrite⟩, 1000000 + 1000⟩)))
          testFinEffect⟩
      (by decide) (by decide) rfl (by decide) (by decide) (by decide) (by decide) (by decide)
      (by decide) (by decide) (by decide) (by decide) (by decide) (by decide) (by decide)
      (by decide) (by decide) (by decide) (by decide) (by decide) (by decide) (by decide)
      (by decide),
    (deploy_info_write_in_effect (testGS maxPaymentAmount) oracleTransferOk pv100 0 0 2
        testTransferDeploy).2
      testProtocolData (testStore maxPaymentAmount) ⟨0⟩ testAccountA
      testMintContract testPosContract TransferTargetMode.unknown []
      (TrackingCopy.new (testStore maxPaymentAmount))
      ⟨none, ⟨10, AccessRights.readAddWrite⟩, ⟨20, AccessRights.readAddWrite⟩, 100, none⟩
      (Key.balance 10) maxPaymentAmount testPaymentPurse noExecResult
      (TrackingCopy.new (testStore maxPaymentAmount))
      (ExecutionResult.success testPayEffect [] 0)
      ⟨testStore maxPaymentAmount, testPayEffect⟩
      (Key.balance 30) 1000000
      ⟨none, ⟨10, AccessRights.readAddWrite⟩, ⟨20, AccessRights.readAddWrite⟩, 100, none⟩
      (some (SysValue.mintResult MintRet.okU))
      (ExecutionResult.success testSessEffect [] 0)
      ⟨testStore maxPaymentAmount, unionEff testPayEffect testSessEffect⟩
      testProposerAccount
      (some SysValue.unitRet) (ExecutionResult.success testFinEffect [] 0)
      ⟨testStore maxPaymentAmount, unionEff (unionEff testPayEffect testSessEffect)
        testFinEffect⟩
      (by decide) (by decide) rfl (by decide) (by decide) (by decide) (by decide) (by decide)
      (by decide) (by decide) (by decide) (by decide) (by decide) (by decide) (by decide)
      (by decide) (by decide) (by decide) (by decide) (by decide) (by decide) (by decide)
      (by decide) (by decide) (by decide)⟩

/-- C7: `commit_step` runs the auction calls in order — slash, then
distribute, then the auction phase, which performs the `run_auction` call
only when `run_auction = true` and makes no call at all (identity on the
tracking copy, whatever the oracle's auction behaviour) when
`run_auction = false` — as the virtual system account on the single
tracking copy threaded through the calls; an error from slash / distribute
/ auction yields `SlashingError` / `DistributeError` / `AuctionError`
respectively with the provider state unchanged (nothing committed); only
when all calls succeed is the effect committed, after which the era
validators are looked up at the new post-state, yielding
`EraValidatorsMissing(next_era_id)` when that era is absent and `Success`
otherwise.  The auction-error / commit / era-lookup conjuncts hold for
either value of `run_auction`; the last two conjuncts pin the auction
phase down: identity when the flag is false, exactly the `run_auction`
system call when it is true. -/
theorem commit_step_behaviour (gs : GlobalState) (o : Oracles) (req : StepRequest)
    (pd : ProtocolData) (m : StoreMap) (auctionC : Contract) (sm : SystemModule)
    (hPd : getProtocolDataGS gs req.protocolVersion = some pd)
    (hRoot : checkoutGS gs req.preStateHash = some m)
    (hAuc : getContractTC (TrackingCopy.new m) pd.auction = Except.ok auctionC)
    (hMod : o.getSystemModule (TrackingCopy.new m) = Except.ok sm) :
    (∀ sv rv1 er1 tc1 e,
      req.slashedValidators = Except.ok sv →
      stepSysCall o SysCall.slash (stepSlashArgs sv) auctionC.namedKeys
        (Key.hashK pd.auction) (TrackingCopy.new m) = (rv1, er1, tc1) →
      er1.takeError = some e →
      commitStepF gs o req = (Except.ok (StepResult.slashingError e), gs)) ∧
    (∀ sv rv1 er1 tc1 rf rv2 er2 tc2 e,
      req.slashedValidators = Except.ok sv →
      stepSysCall o SysCall.slash (stepSlashArgs sv) auctionC.namedKeys
        (Key.hashK pd.auction) (TrackingCopy.new m) = (rv1, er1, tc1) →
      er1.takeError = none →
      req.rewardFactors = Except.ok rf →
      stepSysCall o SysCall.distributeRewards (stepRewardArgs rf) auctionC.namedKeys
        (Key.hashK pd.auction) tc1 = (rv2, er2, tc2) →
      er2.takeError = some e →
      commitStepF gs o req = (Except.ok (StepResult.distributeError e), gs)) ∧
    (∀ sv rv1 er1 tc1 rf rv2 er2 tc2 e,
      req.slashedValidators = Except.ok sv →
      stepSysCall o SysCall.slash (stepSlashArgs sv) auctionC.namedKeys
        (Key.hashK pd.auction) (TrackingCopy.new m) = (rv1, er1, tc1) →
      er1.takeError = none →
      req.rewardFactors = Except.ok rf →
      stepSysCall o SysCall.distributeRewards (stepRewardArgs rf) auctionC.namedKeys
        (Key.hashK pd.auction) tc1 = (rv2, er2, tc2) →
      er2.takeError = none →
      stepAuctionPhase o req.runAuction auctionC.namedKeys (Key.hashK pd.auction) tc2 =
        Except.error e →
      commitStepF gs o req = (Except.ok (StepResult.auctionError e), gs)) ∧
    (∀ sv rv1 er1 tc1 rf rv2 er2 tc2 tc3 gs' post evs,
      req.slashedValidators = Except.ok sv →
      stepSysCall o SysCall.slash (stepSlashArgs sv) auctionC.namedKeys
        (Key.hashK pd.auction) (TrackingCopy.new m) = (rv1, er1, tc1) →
      er1.takeError = none →
      req.rewardFactors = Except.ok rf →
      stepSysCall o SysCall.distributeRewards (stepRewardArgs rf) auctionC.namedKeys
        (Key.hashK pd.auction) tc1 = (rv2, er2, tc2) →
      er2.takeError = none →
      stepAuctionPhase o req.runAuction auctionC.namedKeys (Key.hashK pd.auction) tc2 =
        Except.ok tc3 →
      commitGS gs req.preStateHash tc3.effect = CommitOutcome.success gs' post →
      getEraValidatorsF gs' o post req.protocolVersion = Except.ok evs →
      alookup evs req.nextEraId = none →
      commitStepF gs o req =
        (Except.ok (StepResult.eraValidatorsMissingS req.nextEraId), gs')) ∧
    (∀ sv rv1 er1 tc1 rf rv2 er2 tc2 tc3 gs' post evs w,
      req.slashedValidators = Except.ok sv →
      stepSysCall o SysCall.slash (stepSlashArgs sv) auctionC.namedKeys
        (Key.hashK pd.auction) (TrackingCopy.new m) = (rv1, er1, tc1) →
      er1.takeError = none →
      req.rewardFactors = Except.ok rf →
      stepSysCall o SysCall.distributeRewards (stepRewardArgs rf) auctionC.namedKeys
        (Key.hashK pd.auction) tc1 = (rv2, er2, tc2) →
      er2.takeError = none →
      stepAuctionPhase o req.runAuction auctionC.namedKeys (Key.hashK pd.auction) tc2 =
        Except.ok tc3 →
      commitGS gs req.preStateHash tc3.effect = CommitOutcome.success gs' post →
      getEraValidatorsF gs' o post req.protocolVersion = Except.ok evs →
      alookup evs req.nextEraId = some w →
      commitStepF gs o req = (Except.ok (StepResult.stepSuccess post w), gs')) ∧
    (req.runAuction = false →
      ∀ tc, stepAuctionPhase o req.runAuction auctionC.namedKeys (Key.hashK pd.auction) tc =
        Except.ok tc) ∧
    (∀ tc rv3 er3 tc3 e,
      req.runAuction = true →
      stepSysCall o SysCall.runAuction [] auctionC.namedKeys (Key.hashK pd.auction) tc =
        (rv3, er3, tc3) →
      (er3.takeError = none →
        stepAuctionPhase o req.runAuction auctionC.namedKeys (Key.hashK pd.auction) tc =
          Except.ok tc3) ∧
      (er3.takeError = some e →
        stepAuctionPhase o req.runAuction auctionC.namedKeys (Key.hashK pd.auction) tc =
          Except.error e)) := by
  refine ⟨?_, ?_, ?_, ?_, ?_, ?_, ?_⟩
  · intro sv rv1 er1 tc1 e hSv hSlash hErr
    simp only [commitStepF, hPd, hRoot, hAuc, hMod, hSv, hSlash, hErr]
  · intro sv rv1 er1 tc1 rf rv2 er2 tc2 e hSv hSlash hOk1 hRf hDist hErr
    simp only [commitStepF, hPd, hRoot, hAuc, hMod, hSv, hSlash, hOk1, hRf, hDist, hErr]
  · intro sv rv1 er1 tc1 rf rv2 er2 tc2 e hSv hSlash hOk1 hRf hDist hOk2 hAuct
    simp only [commitStepF, hPd, hRoot, hAuc, hMod, hSv, hSlash, hOk1, hRf, hDist, hOk2,
      hAuct]
  · intro sv rv1 er1 tc1 rf rv2 er2 tc2 tc3 gs' post evs hSv hSlash hOk1 hRf hDist
      hOk2 hAuct hCommit hGev hLook
    simp only [commitStepF, hPd, hRoot, hAuc, hMod, hSv, hSlash, hOk1, hRf, hDist, hOk2,
      hAuct, hCommit, hGev, hLook]
  · intro sv rv1 er1 tc1 rf rv2 er2 tc2 tc3 gs' post evs w hSv hSlash hOk1 hRf
      hDist hOk2 hAuct hCommit hGev hLook
    simp only [commitStepF, hPd, hRoot, hAuc, hMod, hSv, hSlash, hOk1, hRf, hDist, hOk2,
      hAuct, hCommit, hGev, hLook]
  · intro hRA tc
    simp [stepAuctionPhase, hRA]
  · intro tc rv3 er3 tc3 e hRA hCall
    constructor
    · intro hOk
      simp only [stepAuctionPhase, hRA, if_true, hCall, hOk]
    · intro hErr
      simp only [stepAuctionPhase, hRA, if_true, hCall, hErr]

/-- C7 witness: a full successful step on the fixture state, both with
`run_auction = true` (slash, distribute, auction, commit, era-validator
lookup) and with `run_auction = false` (slash, distribute, commit, lookup
— the auction phase is the identity, no auction call). -/
theorem commit_step_behaviour_witness :
    commitGS (testGS maxPaymentAmount) testStepRequest.preStateHash testStepEffect =
      CommitOutcome.success testStepGS 1 ∧
    commitStepF (testGS maxPaymentAmount) oracleStep testStepRequest =
      (Except.ok (StepResult.stepSuccess 1 [(9, 1000)]), testStepGS) ∧
    commitStepF (testGS maxPaymentAmount) oracleStep testStepRequestNoAuction =
      (Except.ok (StepResult.stepSuccess 1 [(9, 1000)]), testStepGS) ∧
    stepAuctionPhase oracleStep testStepRequestNoAuction.runAuction
      testAuctionContract.namedKeys (Key.hashK testProtocolData.auction)
      ⟨testStore maxPaymentAmount, testStepEffect⟩ =
      Except.ok ⟨testStore maxPaymentAmount, testStepEffect⟩ :=
  ⟨by decide,
    (commit_step_behaviour (testGS maxPaymentAmount) oracleStep testStepRequest
        testProtocolData (testStore maxPaymentAmount) testAuctionContract ⟨0⟩
        (by decide) (by decide) (by decide) rfl).2.2.2.2.1
      [] (some SysValue.unitRet) (ExecutionResult.success testStepEffect [] 0)
      ⟨testStore maxPaymentAmount, testStepEffect⟩
      [(9, 100)] (some SysValue.unitRet) noExecResult
      ⟨testStore maxPaymentAmount, testStepEffect⟩
      ⟨testStore maxPaymentAmount, testStepEffect⟩
      testStepGS 1 [(42, [(9, 1000)])] [(9, 1000)]
      (by decide) (by decide) (by decide) (by decide) (by decide) (by decide) (by decide)
      (by decide) (by decide) (by decide),
    (commit_step_behaviour (testGS maxPaymentAmount) oracleStep testStepRequestNoAuction
        testProtocolData (testStore maxPaymentAmount) testAuctionContract ⟨0⟩
        (by decide) (by decide) (by decide) rfl).2.2.2.2.1
      [] (some SysValue.unitRet) (ExecutionResult.success testStepEffect [] 0)
      ⟨testStore maxPaymentAmount, testStepEffect⟩
      [(9, 100)] (some SysValue.unitRet) noExecResult
      ⟨testStore maxPaymentAmount, testStepEffect⟩
      ⟨testStore maxPaymentAmount, testStepEffect⟩
      testStepGS 1 [(42, [(9, 1000)])] [(9, 1000)]
      (by decide) (by decide) (by decide) (by decide) (by decide) (by decide) (by decide)
      (by decide) (by decide) (by decide),
    (commit_step_behaviour (testGS maxPaymentAmount) oracleStep testStepRequestNoAuction
        testProtocolData (testStore maxPaymentAmount) testAuctionContract ⟨0⟩
        (by decide) (by decide) (by decide) rfl).2.2.2.2.2.1
      (by decide) ⟨testStore maxPaymentAmount, testStepEffect⟩⟩

theorem storeLookup_storeSet_self (m : StoreMap) (k : Key) (v : StoredValue) :
    storeLookup (storeSet m k v) k = some v := by
  induction m with
  | nil => simp [storeSet, storeLookup, alookup]
  | cons kv rest ih =>
    obtain ⟨k0, v0⟩ := kv
    by_cases h : k0 = k
    · subst h
      simp [storeSet, storeLookup, alookup]
    · simp only [storeLookup] at ih
      simp [storeSet, storeLookup, alookup, h, ih]

theorem storeLookup_storeSet_other (m : StoreMap) (k' k : Key) (v : StoredValue)
    (h : ¬ k' = k) : storeLookup (storeSet m k' v) k = storeLookup m k := by
  induction m with
  | nil => simp [storeSet, storeLookup, alookup, h]
  | cons kv rest ih =>
    obtain ⟨k0, v0⟩ := kv
    by_cases h0 : k0 = k'
    · subst h0
      simp [storeSet, storeLookup, alookup, h]
    · by_cases h1 : k0 = k
      · subst h1
        simp [storeSet, storeLookup, alookup, h0]
      · simp only [storeLookup] at ih
        simp [storeSet, storeLookup, alookup, h0, h1, ih]

theorem applyTransform_lookup_other (m : StoreMap) (k0 k : Key) (t : Transform)
    (m1 : StoreMap) (h : applyTransform m k0 t = Except.ok m1) (hne : ¬ k0 = k) :
    storeLookup m1 k = storeLookup m k := by
  cases t with
  | identity =>
    simp only [applyTransform, Except.ok.injEq] at h
    subst h
    rfl
  | writeT v =>
    simp only [applyTransform, Except.ok.injEq] at h
    subst h
    exact storeLookup_storeSet_other m k0 k v hne
  | addU512 n =>
    simp only [applyTransform] at h
    split at h
    · exact absurd h (by simp)
    · simp only [Except.ok.injEq] at h
      subst h
      exact storeLookup_storeSet_other m k0 k _ hne
    · exact absurd h (by simp)
  | failureT => simp [applyTransform] at h

theorem applyEff_lookup_of_absent (eff : Effect) (k : Key)
    (h : containsKeyB eff k = false) :
    ∀ m m', applyEff m eff = Except.ok m' → storeLookup m' k = storeLookup m k := by
  induction eff with
  | nil =>
    intro m m' happ
    simp only [applyEff, Except.ok.injEq] at happ
    subst happ
    rfl
  | cons kt rest ih =>
    obtain ⟨k0, t0⟩ := kt
    intro m m' happ
    simp only [containsKeyB, Bool.or_eq_false_iff, decide_eq_false_iff_not] at h
    simp only [applyEff] at happ
    cases ht : applyTransform m k0 t0 with
    | error e => rw [ht] at happ; exact absurd happ (by simp)
    | ok m1 =>
      rw [ht] at happ
      rw [ih h.2 m1 m' happ, applyTransform_lookup_other m k0 k t0 m1 ht h.1]

theorem applyEff_lookup_write (eff : Effect) (k : Key) (v : StoredValue)
    (hnd : keysNodupB eff = true) (hl : lookupT eff k = some (Transform.writeT v)) :
    ∀ m m', applyEff m eff = Except.ok m' → storeLookup m' k = some v := by
  induction eff with
  | nil => intro m m' happ; simp [lookupT] at hl
  | cons kt rest ih =>
    obtain ⟨k0, t0⟩ := kt
    intro m m' happ
    simp only [keysNodupB, Bool.and_eq_true, Bool.not_eq_true'] at hnd
    simp only [applyEff] at happ
    by_cases h0 : k0 = k
    · subst h0
      simp only [lookupT] at hl
      simp only [if_true] at hl
      simp only [Option.some.injEq] at hl
      subst hl
      simp only [applyTransform] at happ
      rw [applyEff_lookup_of_absent rest k0 hnd.1 _ m' happ,
        storeLookup_storeSet_self]
    · simp only [lookupT, h0, if_false] at hl
      cases ht : applyTransform m k0 t0 with
      | error e => rw [ht] at happ; exact absurd happ (by simp)
      | ok m1 => rw [ht] at happ; exact ih hnd.2 hl m1 m' happ

theorem optWrite_nodup {α : Type} (maybe : Option α) (mk : α → CLVal)
    (tc tc' : TrackingCopy) (ch : Nat) (name : String)
    (hstep : optConfigStep maybe mk tc ch name = some (Except.ok tc'))
    (hnd : keysNodupB tc.log = true) : keysNodupB tc'.log = true := by
  cases maybe with
  | none =>
    simp only [optConfigStep, Option.some.injEq, Except.ok.injEq] at hstep
    rw [← hstep]
    exact hnd
  | some v =>
    simp only [optConfigStep, writeConfigValue] at hstep
    cases hc : getContractTC tc ch with
    | error e =>
      simp only [hc] at hstep
      exact absurd hstep (by simp)
    | ok c =>
      simp only [hc] at hstep
      cases hk : alookup c.namedKeys name with
      | none =>
        simp only [hk] at hstep
        exact absurd hstep (by simp)
      | some kk =>
        simp only [hk, Option.some.injEq, Except.ok.injEq] at hstep
        rw [← hstep]
        exact keysNodupB_insertT tc.log kk _ hnd

theorem optWrite_preserve {α : Type} (maybe : Option α) (mk : α → CLVal)
    (tc tc' : TrackingCopy) (ch : Nat) (name : String) (k : Key)
    (hstep : optConfigStep maybe mk tc ch name = some (Except.ok tc'))
    (havoid : stepKeyAvoids tc ch name k = true) :
    lookupT tc'.log k = lookupT tc.log k := by
  cases maybe with
  | none =>
    simp only [optConfigStep, Option.some.injEq, Except.ok.injEq] at hstep
    rw [← hstep]
  | some v =>
    simp only [optConfigStep, writeConfigValue] at hstep
    cases hc : getContractTC tc ch with
    | error e =>
      simp only [hc] at hstep
      exact absurd hstep (by simp)
    | ok c =>
      simp only [hc] at hstep
      cases hk : alookup c.namedKeys name with
      | none =>
        simp only [hk] at hstep
        exact absurd hstep (by simp)
      | some kk =>
        simp only [hk, Option.some.injEq, Except.ok.injEq] at hstep
        simp only [stepKeyAvoids, hc, hk, decide_eq_true_eq] at havoid
        rw [← hstep]
        exact lookupT_insertT_other tc.log kk k _ havoid

theorem optWrite_supplied {α : Type} (maybe : Option α) (mk : α → CLVal)
    (tc tc' : TrackingCopy) (ch : Nat) (name : String) (v : α) (c : Contract) (kk : Key)
    (hstep : optConfigStep maybe mk tc ch name = some (Except.ok tc'))
    (hv : maybe = some v)
    (hc : getContractTC tc ch = Except.ok c)
    (hk : alookup c.namedKeys name = some kk) :
    tc' = tc.writeKV kk (StoredValue.clValue (mk v)) := by
  subst hv
  simp only [optConfigStep, writeConfigValue, hc, hk, Option.some.injEq,
    Except.ok.injEq] at hstep
  exact hstep.symm

/-- C9: when `commit_upgrade`'s preconditions hold (pre-state exists,
current protocol data stored, version bump valid) and the config supplies
`new_validator_slots` — the other four config values being arbitrary,
supplied or absent — the committed post-state stores the supplied
validator-slots value under the auction's `validator_slots` named key; and
each of auction_delay, locked_funds_period, unbonding_delay (auction
contract) and round_seigniorage_rate (mint contract) that is supplied is
analogously stored under its own named key.  Each later step is assumed
not to overwrite an earlier step's key (`stepKeyAvoids`; the named keys
are distinct URefs on a real chain). -/
theorem commit_upgrade_writes_config (gs : GlobalState) (o : Oracles) (cfg : UpgradeConfig)
    (curPd : ProtocolData) (m : StoreMap) (vc : VersionCheck) (tc1 : TrackingCopy)
    (slots : Nat) (c1 : Contract) (k1 : Key) (tc3 tc4 tc5 tc6 : TrackingCopy)
    (gs2 : GlobalState) (post : Nat) (m2 : StoreMap)
    (hRoot : checkoutGS gs cfg.preStateHash = some m)
    (hCur : getProtocolDataGS gs cfg.currentProtocolVersion = some curPd)
    (hCheckEq : checkNextVersion cfg.currentProtocolVersion cfg.newProtocolVersion = vc)
    (hvc : ¬ vc = VersionCheck.invalid)
    (hInst : (if vc = VersionCheck.majorBump then
        o.upgradeSystemContractsMajor (TrackingCopy.new m)
      else Except.ok (TrackingCopy.new m)) = Except.ok tc1)
    (hnd : keysNodupB tc1.log = true)
    (hSlots : cfg.newValidatorSlots = some slots)
    (hC1 : getContractTC tc1 curPd.auction = Except.ok c1)
    (hK1 : alookup c1.namedKeys validatorSlotsKeyName = some k1)
    (hS2 : optConfigStep cfg.newAuctionDelay CLVal.u64
      (tc1.writeKV k1 (StoredValue.clValue (CLVal.u32 slots)))
      curPd.auction auctionDelayKeyName = some (Except.ok tc3))
    (hS3 : optConfigStep cfg.newLockedFundsPeriod CLVal.u64 tc3
      curPd.auction lockedFundsPeriodKeyName = some (Except.ok tc4))
    (hS4 : optConfigStep cfg.newUnbondingDelay CLVal.u64 tc4
      curPd.auction unbondingDelayKeyName = some (Except.ok tc5))
    (hS5 : optConfigStep cfg.newRoundSeigniorageRate (fun r => CLVal.rateV r.1 r.2) tc5
      curPd.mint roundSeigniorageRateKeyName = some (Except.ok tc6))
    (hA2 : stepKeyAvoids (tc1.writeKV k1 (StoredValue.clValue (CLVal.u32 slots)))
      curPd.auction auctionDelayKeyName k1 = true)
    (hA3 : stepKeyAvoids tc3 curPd.auction lockedFundsPeriodKeyName k1 = true)
    (hA4 : stepKeyAvoids tc4 curPd.auction unbondingDelayKeyName k1 = true)
    (hA5 : stepKeyAvoids tc5 curPd.mint roundSeigniorageRateKeyName k1 = true)
    (hCommit : commitGS
      (putProtocolDataGS gs cfg.newProtocolVersion
        ⟨cfg.wasmConfig.getD curPd.wasmConfig, cfg.systemConfig.getD curPd.systemConfig,
          curPd.mint, curPd.proofOfStake, curPd.standardPayment, curPd.auction⟩)
      cfg.preStateHash tc6.effect = CommitOutcome.success gs2 post)
    (hM2 : checkoutGS gs2 post = some m2) :
    commitUpgradeF gs o cfg =
      some (Except.ok (UpgradeResult.successU post tc6.effect), gs2) ∧
    storeLookup m2 k1 = some (StoredValue.clValue (CLVal.u32 slots)) ∧
    (∀ delay c2 k2, cfg.newAuctionDelay = some delay →
      getContractTC (tc1.writeKV k1 (StoredValue.clValue (CLVal.u32 slots)))
        curPd.auction = Except.ok c2 →
      alookup c2.namedKeys auctionDelayKeyName = some k2 →
      stepKeyAvoids tc3 curPd.auction lockedFundsPeriodKeyName k2 = true →
      stepKeyAvoids tc4 curPd.auction unbondingDelayKeyName k2 = true →
      stepKeyAvoids tc5 curPd.mint roundSeigniorageRateKeyName k2 = true →
      storeLookup m2 k2 = some (StoredValue.clValue (CLVal.u64 delay))) ∧
    (∀ period c3 k3, cfg.newLockedFundsPeriod = some period →
      getContractTC tc3 curPd.auction = Except.ok c3 →
      alookup c3.namedKeys lockedFundsPeriodKeyName = some k3 →
      stepKeyAvoids tc4 curPd.auction unbondingDelayKeyName k3 = true →
      stepKeyAvoids tc5 curPd.mint roundSeigniorageRateKeyName k3 = true →
      storeLookup m2 k3 = some (StoredValue.clValue (CLVal.u64 period))) ∧
    (∀ unbond c4 k4, cfg.newUnbondingDelay = some unbond →
      getContractTC tc4 curPd.auction = Except.ok c4 →
      alookup c4.namedKeys unbondingDelayKeyName = some k4 →
      stepKeyAvoids tc5 curPd.mint roundSeigniorageRateKeyName k4 = true →
      storeLookup m2 k4 = some (StoredValue.clValue (CLVal.u64 unbond))) ∧
    (∀ rate c5 k5, cfg.newRoundSeigniorageRate = some rate →
      getContractTC tc5 curPd.mint = Except.ok c5 →
      alookup c5.namedKeys roundSeigniorageRateKeyName = some k5 →
      storeLookup m2 k5 = some (StoredValue.clValue (CLVal.rateV rate.1 rate.2))) := by
  have hStep1 : optConfigStep cfg.newValidatorSlots CLVal.u32 tc1
      curPd.auction validatorSlotsKeyName =
      some (Except.ok (tc1.writeKV k1 (StoredValue.clValue (CLVal.u32 slots)))) := by
    rw [hSlots]
    simp only [optConfigStep, writeConfigValue, hC1, hK1]
  have hResult : commitUpgradeF gs o cfg =
      some (Except.ok (UpgradeResult.successU post tc6.effect), gs2) := by
    simp only [commitUpgradeF, hRoot, hCur, hCheckEq, hvc, ite_false, if_false, hInst,
      hStep1, hS2, hS3, hS4, hS5, hCommit]
  refine ⟨hResult, ?_⟩
  -- invert the commit to obtain the applied map
  have hCheckout1 : checkoutGS
      (putProtocolDataGS gs cfg.newProtocolVersion
        ⟨cfg.wasmConfig.getD curPd.wasmConfig, cfg.systemConfig.getD curPd.systemConfig,
          curPd.mint, curPd.proofOfStake, curPd.standardPayment, curPd.auction⟩)
      cfg.preStateHash = some m := hRoot
  simp only [commitGS, hCheckout1] at hCommit
  split at hCommit
  · exact absurd hCommit (by simp)
  · rename_i mApplied happ
    injection hCommit with hgs2 hpost
    have hm2 : m2 = mApplied := by
      rw [← hgs2, ← hpost] at hM2
      simp only [checkoutGS, putProtocolDataGS] at hM2
      rw [List.get?_concat_length] at hM2
      exact (Option.some.injEq _ _ ▸ hM2).symm
    subst hm2
    have hndW1 : keysNodupB (tc1.writeKV k1
        (StoredValue.clValue (CLVal.u32 slots))).log = true :=
      keysNodupB_insertT tc1.log k1 _ hnd
    have hnd3 : keysNodupB tc3.log = true :=
      optWrite_nodup cfg.newAuctionDelay CLVal.u64
        (tc1.writeKV k1 (StoredValue.clValue (CLVal.u32 slots))) tc3 curPd.auction
        auctionDelayKeyName hS2 hndW1
    have hnd4 : keysNodupB tc4.log = true :=
      optWrite_nodup cfg.newLockedFundsPeriod CLVal.u64 tc3 tc4 curPd.auction
        lockedFundsPeriodKeyName hS3 hnd3
    have hnd5 : keysNodupB tc5.log = true :=
      optWrite_nodup cfg.newUnbondingDelay CLVal.u64 tc4 tc5 curPd.auction
        unbondingDelayKeyName hS4 hnd4
    have hnd6 : keysNodupB tc6.log = true :=
      optWrite_nodup cfg.newRoundSeigniorageRate (fun r => CLVal.rateV r.1 r.2) tc5 tc6
        curPd.mint roundSeigniorageRateKeyName hS5 hnd5
    have hlW1 : lookupT (tc1.writeKV k1 (StoredValue.clValue (CLVal.u32 slots))).log k1 =
        some (Transform.writeT (StoredValue.clValue (CLVal.u32 slots))) :=
      lookupT_insertT_writeT tc1.log k1 _
    have hl3 : lookupT tc3.log k1 =
        some (Transform.writeT (StoredValue.clValue (CLVal.u32 slots))) :=
      (optWrite_preserve cfg.newAuctionDelay CLVal.u64
        (tc1.writeKV k1 (StoredValue.clValue (CLVal.u32 slots))) tc3 curPd.auction
        auctionDelayKeyName k1 hS2 hA2).trans hlW1
    have hl4 : lookupT tc4.log k1 =
        some (Transform.writeT (StoredValue.clValue (CLVal.u32 slots))) :=
      (optWrite_preserve cfg.newLockedFundsPeriod CLVal.u64 tc3 tc4 curPd.auction
        lockedFundsPeriodKeyName k1 hS3 hA3).trans hl3
    have hl5 : lookupT tc5.log k1 =
        some (Transform.writeT (StoredValue.clValue (CLVal.u32 slots))) :=
      (optWrite_preserve cfg.newUnbondingDelay CLVal.u64 tc4 tc5 curPd.auction
        unbondingDelayKeyName k1 hS4 hA4).trans hl4
    have hl6 : lookupT tc6.log k1 =
        some (Transform.writeT (StoredValue.clValue (CLVal.u32 slots))) :=
      (optWrite_preserve cfg.newRoundSeigniorageRate (fun r => CLVal.rateV r.1 r.2) tc5 tc6
        curPd.mint roundSeigniorageRateKeyName k1 hS5 hA5).trans hl5
    refine ⟨?_, ?_, ?_, ?_, ?_⟩
    · exact applyEff_lookup_write tc6.effect k1 _ hnd6 hl6 m m2 happ
    · intro delay c2 k2 hdel hc2 hk2 a3 a4 a5
      have htc3 : tc3 = (tc1.writeKV k1 (StoredValue.clValue (CLVal.u32 slots))).writeKV
          k2 (StoredValue.clValue (CLVal.u64 delay)) :=
        optWrite_supplied cfg.newAuctionDelay CLVal.u64
          (tc1.writeKV k1 (StoredValue.clValue (CLVal.u32 slots))) tc3 curPd.auction
          auctionDelayKeyName delay c2 k2 hS2 hdel hc2 hk2
      have hw3 : lookupT tc3.log k2 =
          some (Transform.writeT (StoredValue.clValue (CLVal.u64 delay))) := by
        rw [htc3]
        exact lookupT_insertT_writeT _ k2 _
      have hw4 : lookupT tc4.log k2 =
          some (Transform.writeT (StoredValue.clValue (CLVal.u64 delay))) :=
        (optWrite_preserve cfg.newLockedFundsPeriod CLVal.u64 tc3 tc4 curPd.auction
          lockedFundsPeriodKeyName k2 hS3 a3).trans hw3
      have hw5 : lookupT tc5.log k2 =
          some (Transform.writeT (StoredValue.clValue (CLVal.u64 delay))) :=
        (optWrite_preserve cfg.newUnbondingDelay CLVal.u64 tc4 tc5 curPd.auction
          unbondingDelayKeyName k2 hS4 a4).trans hw4
      have hw6 : lookupT tc6.log k2 =
          some (Transform.writeT (StoredValue.clValue (CLVal.u64 delay))) :=
        (optWrite_preserve cfg.newRoundSeigniorageRate (fun r => CLVal.rateV r.1 r.2)
          tc5 tc6 curPd.mint roundSeigniorageRateKeyName k2 hS5 a5).trans hw5
      exact applyEff_lookup_write tc6.effect k2 _ hnd6 hw6 m m2 happ
    · intro period c3 k3 hper hc3 hk3 a4 a5
      have htc4 : tc4 = tc3.writeKV k3 (StoredValue.clValue (CLVal.u64 period)) :=
        optWrite_supplied cfg.newLockedFundsPeriod CLVal.u64 tc3 tc4 curPd.auction
          lockedFundsPeriodKeyName period c3 k3 hS3 hper hc3 hk3
      have hw4 : lookupT tc4.log k3 =
          some (Transform.writeT (StoredValue.clValue (CLVal.u64 period))) := by
        rw [htc4]
        exact lookupT_insertT_writeT _ k3 _
      have hw5 : lookupT tc5.log k3 =
          some (Transform.writeT (StoredValue.clValue (CLVal.u64 period))) :=
        (optWrite_preserve cfg.newUnbondingDelay CLVal.u64 tc4 tc5 curPd.auction
          unbondingDelayKeyName k3 hS4 a4).trans hw4
      have hw6 : lookupT tc6.log k3 =
          some (Transform.writeT (StoredValue.clValue (CLVal.u64 period))) :=
        (optWrite_preserve cfg.newRoundSeigniorageRate (fun r => CLVal.rateV r.1 r.2)
          tc5 tc6 curPd.mint roundSeigniorageRateKeyName k3 hS5 a5).trans hw5
      exact applyEff_lookup_write tc6.effect k3 _ hnd6 hw6 m m2 happ
    · intro unbond c4 k4 hub hc4 hk4 a5
      have htc5 : tc5 = tc4.writeKV k4 (StoredValue.clValue (CLVal.u64 unbond)) :=
        optWrite_supplied cfg.newUnbondingDelay CLVal.u64 tc4 tc5 curPd.auction
          unbondingDelayKeyName unbond c4 k4 hS4 hub hc4 hk4
      have hw5 : lookupT tc5.log k4 =
          some (Transform.writeT (StoredValue.clValue (CLVal.u64 unbond))) := by
        rw [htc5]
        exact lookupT_insertT_writeT _ k4 _
      have hw6 : lookupT tc6.log k4 =
          some (Transform.writeT (StoredValue.clValue (CLVal.u64 unbond))) :=
        (optWrite_preserve cfg.newRoundSeigniorageRate (fun r => CLVal.rateV r.1 r.2)
          tc5 tc6 curPd.mint roundSeigniorageRateKeyName k4 hS5 a5).trans hw5
      exact applyEff_lookup_write tc6.effect k4 _ hnd6 hw6 m m2 happ
    · intro rate c5 k5 hrt hc5 hk5
      have htc6 : tc6 = tc5.writeKV k5 (StoredValue.clValue (CLVal.rateV rate.1 rate.2)) :=
        optWrite_supplied cfg.newRoundSeigniorageRate (fun r => CLVal.rateV r.1 r.2)
          tc5 tc6 curPd.mint roundSeigniorageRateKeyName rate c5 k5 hS5 hrt hc5 hk5
      have hw6 : lookupT tc6.log k5 =
          some (Transform.writeT (StoredValue.clValue (CLVal.rateV rate.1 rate.2))) := by
        rw [htc6]
        exact lookupT_insertT_writeT _ k5 _
      exact applyEff_lookup_write tc6.effect k5 _ hnd6 hw6 m m2 happ

/-- C9 witness: upgrading 1.0.0 → 1.1.0 with a config supplying only the
validator slots (7) commits a post-state storing 7 under the auction's
`validator_slots` named key; with the all-five config, the supplied
auction delay (3) and seigniorage rate (1/200) also land under their named
keys. -/
theorem commit_upgrade_writes_config_witness :
    checkNextVersion pv100 pv110 = VersionCheck.minorOrPatch ∧
    commitUpgradeF (testGS maxPaymentAmount) oracleOk testUpgradeSlotsOnly =
      some (Except.ok (UpgradeResult.successU 1
        [(Key.uref ⟨40, AccessRights.readAddWrite⟩,
          Transform.writeT (StoredValue.clValue (CLVal.u32 7)))]), testSlotsOnlyGS) ∧
    storeLookup testSlotsOnlyStore (Key.uref ⟨40, AccessRights.readAddWrite⟩) =
      some (StoredValue.clValue (CLVal.u32 7)) ∧
    storeLookup testUpgradedStore (Key.uref ⟨41, AccessRights.readAddWrite⟩) =
      some (StoredValue.clValue (CLVal.u64 3)) ∧
    storeLookup testUpgradedStore (Key.uref ⟨44, AccessRights.readAddWrite⟩) =
      some (StoredValue.clValue (CLVal.rateV 1 200)) := by
  have HA := commit_upgrade_writes_config (testGS maxPaymentAmount) oracleOk
    testUpgradeSlotsOnly testProtocolData (testStore maxPaymentAmount)
    VersionCheck.minorOrPatch (TrackingCopy.new (testStore maxPaymentAmount)) 7
    testAuctionContract (Key.uref ⟨40, AccessRights.readAddWrite⟩)
    ((TrackingCopy.new (testStore maxPaymentAmount)).writeKV
      (Key.uref ⟨40, AccessRights.readAddWrite⟩) (StoredValue.clValue (CLVal.u32 7)))
    ((TrackingCopy.new (testStore maxPaymentAmount)).writeKV
      (Key.uref ⟨40, AccessRights.readAddWrite⟩) (StoredValue.clValue (CLVal.u32 7)))
    ((TrackingCopy.new (testStore maxPaymentAmount)).writeKV
      (Key.uref ⟨40, AccessRights.readAddWrite⟩) (StoredValue.clValue (CLVal.u32 7)))
    ((TrackingCopy.new (testStore maxPaymentAmount)).writeKV
      (Key.uref ⟨40, AccessRights.readAddWrite⟩) (StoredValue.clValue (CLVal.u32 7)))
    testSlotsOnlyGS 1 testSlotsOnlyStore
    (by decide) (by decide) (by decide) (by decide) (by decide) (by decide) (by decide)
    (by decide) (by decide) (by decide) (by decide) (by decide) (by decide) (by decide)
    (by decide) (by decide) (by decide) (by decide) (by decide)
  have HB := commit_upgrade_writes_config (testGS maxPaymentAmount) oracleOk
    testUpgradeConfig testProtocolData (testStore maxPaymentAmount)
    VersionCheck.minorOrPatch (TrackingCopy.new (testStore maxPaymentAmount)) 7
    testAuctionContract (Key.uref ⟨40, AccessRights.readAddWrite⟩)
    (((TrackingCopy.new (testStore maxPaymentAmount)).writeKV
      (Key.uref ⟨40, AccessRights.readAddWrite⟩)
      (StoredValue.clValue (CLVal.u32 7))).writeKV
      (Key.uref ⟨41, AccessRights.readAddWrite⟩) (StoredValue.clValue (CLVal.u64 3)))
    ((((TrackingCopy.new (testStore maxPaymentAmount)).writeKV
      (Key.uref ⟨40, AccessRights.readAddWrite⟩)
      (StoredValue.clValue (CLVal.u32 7))).writeKV
      (Key.uref ⟨41, AccessRights.readAddWrite⟩)
      (StoredValue.clValue (CLVal.u64 3))).writeKV
      (Key.uref ⟨42, AccessRights.readAddWrite⟩) (StoredValue.clValue (CLVal.u64 4)))
    (((((TrackingCopy.new (testStore maxPaymentAmount)).writeKV
      (Key.uref ⟨40, AccessRights.readAddWrite⟩)
      (StoredValue.clValue (CLVal.u32 7))).writeKV
      (Key.uref ⟨41, AccessRights.readAddWrite⟩)
      (StoredValue.clValue (CLVal.u64 3))).writeKV
      (Key.uref ⟨42, AccessRights.readAddWrite⟩)
      (StoredValue.clValue (CLVal.u64 4))).writeKV
      (Key.uref ⟨43, AccessRights.readAddWrite⟩) (StoredValue.clValue (CLVal.u64 5)))
    ((((((TrackingCopy.new (testStore maxPaymentAmount)).writeKV
      (Key.uref ⟨40, AccessRights.readAddWrite⟩)
      (StoredValue.clValue (CLVal.u32 7))).writeKV
      (Key.uref ⟨41, AccessRights.readAddWrite⟩)
      (StoredValue.clValue (CLVal.u64 3))).writeKV
      (Key.uref ⟨42, AccessRights.readAddWrite⟩)
      (StoredValue.clValue (CLVal.u64 4))).writeKV
      (Key.uref ⟨43, AccessRights.readAddWrite⟩)
      (StoredValue.clValue (CLVal.u64 5))).writeKV
      (Key.uref ⟨44, AccessRights.readAddWrite⟩)
      (StoredValue.clValue (CLVal.rateV 1 200)))
    testUpgradedGS 1 testUpgradedStore
    (by decide) (by decide) (by decide) (by decide) (by decide) (by decide) (by decide)
    (by decide) (by decide) (by decide) (by decide) (by decide) (by decide) (by decide)
    (by decide) (by decide) (by decide) (by decide) (by decide)
  exact ⟨by decide, HA.1, HA.2.1,
    HB.2.2.1 3 testAuctionContract (Key.uref ⟨41, AccessRights.readAddWrite⟩)
      (by decide) (by decide) (by decide) (by decide) (by decide) (by decide),
    HB.2.2.2.2.2 (1, 200) testMintContract (Key.uref ⟨44, AccessRights.readAddWrite⟩)
      (by decide) (by decide) (by decide)⟩

/-- C10: every execution of `deploy` and of `transfer` that reaches the
final build step has set all three builder slots (payment, session,
finalize), so `ExecutionResultBuilder::build` returns `Ok` and the
`expect("ExecutionResultBuilder not initialized properly")` panic site
(modelled as the `none` outcome) is unreachable — for all states, oracle
behaviours and deploys. -/
theorem builder_always_initialized (gs : GlobalState) (o : Oracles) (pv : ProtocolVersion)
    (root bt proposer : Nat) (d : DeployItem) :
    deployF gs o pv root bt d proposer ≠ none ∧
    transferF gs o pv root bt d proposer ≠ none := by
  constructor
  · unfold deployF
    simp only [Key.intoAccount]
    repeat' split
    all_goals
      simp_all [ExecutionResultBuilder.build, ExecutionResultBuilder.empty,
        ExecutionResultBuilder.setPayment, ExecutionResultBuilder.setSession,
        ExecutionResultBuilder.setFinalize, ite_eq_iff]
  · unfold transferF
    simp only [Key.intoAccount]
    repeat' split
    all_goals
      simp_all [ExecutionResultBuilder.build, ExecutionResultBuilder.empty,
        ExecutionResultBuilder.setPayment, ExecutionResultBuilder.setSession,
        ExecutionResultBuilder.setFinalize, ite_eq_iff]
